import Mathlib

/-!
Verification of the prompt-pack security/integrity core against its
specification.  The Go sources under `apps/api/internal/auth` and
`apps/api/internal/auditzip` are shallowly embedded: pure functions become
Lean functions, stateful operations become explicit state-passing functions,
Go strings are lists of characters, byte slices are lists of naturals,
`time.Time`/`time.Duration` values are integers (nanoseconds), and calls into
external libraries (bcrypt, argon2, randomness) are parameters of the
development with their documented behaviour stated as hypotheses.  SHA-256,
hex, base64 and the decimal formatting/parsing used by the hasher are
implemented concretely so that claims about them are decidable.
-/

set_option maxRecDepth 1000000

namespace PromptPack

/-- Bytes of a Go byte slice; each entry is `< 256` in well-formed data. -/
abbrev Bytes := List Nat

/-- Go strings are modelled as lists of characters (all data handled by the
embedded code is ASCII, so this coincides with Go's UTF-8 byte view). -/
abbrev Str := List Char

/-- Convert a Lean string literal to the `Str` representation. -/
def str (s : String) : Str := s.data

/-- The byte view of a string, as Go's `[]byte(s)` for ASCII data. -/
def strBytes (s : Str) : Bytes := s.map Char.toNat

/-- Truncation to a 32-bit word. -/
def w32 (x : Nat) : Nat := x % 4294967296

/-- Right rotation of a 32-bit word by `n` bits. -/
def rotr (n x : Nat) : Nat := x / 2 ^ n + x % 2 ^ n * 2 ^ (32 - n)

/-- Bitwise complement of a 32-bit word. -/
def not32 (x : Nat) : Nat := Nat.xor x 4294967295

def sigma0 (x : Nat) : Nat := Nat.xor (rotr 7 x) (Nat.xor (rotr 18 x) (x / 2 ^ 3))

def sigma1 (x : Nat) : Nat := Nat.xor (rotr 17 x) (Nat.xor (rotr 19 x) (x / 2 ^ 10))

def bigS0 (x : Nat) : Nat := Nat.xor (rotr 2 x) (Nat.xor (rotr 13 x) (rotr 22 x))

def bigS1 (x : Nat) : Nat := Nat.xor (rotr 6 x) (Nat.xor (rotr 11 x) (rotr 25 x))

def ch32 (e f g : Nat) : Nat := Nat.xor (Nat.land e f) (Nat.land (not32 e) g)

def maj32 (a b c : Nat) : Nat :=
  Nat.xor (Nat.land a b) (Nat.xor (Nat.land a c) (Nat.land b c))

/-- SHA-256 round constants. -/
def k64 : List Nat :=
  [1116352408, 1899447441, 3049323471, 3921009573, 961987163, 1508970993,
   2453635748, 2870763221, 3624381080, 310598401, 607225278, 1426881987,
   1925078388, 2162078206, 2614888103, 3248222580, 3835390401, 4022224774,
   264347078, 604807628, 770255983, 1249150122, 1555081692, 1996064986,
   2554220882, 2821834349, 2952996808, 3210313671, 3336571891, 3584528711,
   113926993, 338241895, 666307205, 773529912, 1294757372, 1396182291,
   1695183700, 1986661051, 2177026350, 2456956037, 2730485921, 2820302411,
   3259730800, 3345764771, 3516065817, 3600352804, 4094571909, 275423344,
   430227734, 506948616, 659060556, 883997877, 958139571, 1322822218,
   1537002063, 1747873779, 1955562222, 2024104815, 2227730452, 2361852424,
   2428436474, 2756734187, 3204031479, 3329325298]

/-- SHA-256 initial hash state. -/
def h0 : List Nat :=
  [1779033703, 3144134277, 1013904242, 2773480762, 1359893119, 2600822924, 528734635, 1541459225]

/-- Big-endian byte rendering of `n`, `k` bytes wide. -/
def beBytes (k n : Nat) : List Nat :=
  (List.range k).map (fun i => n / 256 ^ (k - 1 - i) % 256)

/-- SHA-256 message padding: `0x80`, zeros, then the 64-bit message bit length. -/
def shaPad (msg : List Nat) : List Nat :=
  msg ++ 0x80 :: List.replicate ((64 - (msg.length + 9) % 64) % 64) 0 ++ beBytes 8 (8 * msg.length)

/-- Worker for `chunkList`: `acc` holds the current chunk reversed and `k` its
remaining capacity.  Structural recursion, so kernel reduction works. -/
def chunkGo (n : Nat) : List α → List α → Nat → List (List α)
  | [], acc, _ => [acc.reverse]
  | x :: xs, acc, 0 => acc.reverse :: chunkGo n xs [x] n
  | x :: xs, acc, Nat.succ k => chunkGo n xs (x :: acc) k

/-- Split a list into chunks of `n + 1` elements. -/
def chunkList (n : Nat) : List α → List (List α)
  | [] => []
  | x :: xs => chunkGo n xs [x] n

/-- Assemble big-endian 32-bit words from byte quadruples. -/
def toWords (l : List Nat) : List Nat :=
  (chunkList 3 l).map (fun c =>
    c.getD 0 0 * 16777216 + c.getD 1 0 * 65536 + c.getD 2 0 * 256 + c.getD 3 0)

/-- One step of the SHA-256 message-schedule extension. -/
def schedStep (ws : List Nat) : List Nat :=
  let r := ws.reverse
  ws ++ [w32 (r.getD 15 0 + sigma0 (r.getD 14 0) + r.getD 6 0 + sigma1 (r.getD 1 0))]

/-- Extend 16 schedule words to 64. -/
def schedule (ws : List Nat) : List Nat := schedStep^[48] ws

/-- One SHA-256 compression round. -/
def shaRound (st : List Nat) (kw : Nat × Nat) : List Nat :=
  let a := st.getD 0 0
  let b := st.getD 1 0
  let c := st.getD 2 0
  let d := st.getD 3 0
  let e := st.getD 4 0
  let f := st.getD 5 0
  let g := st.getD 6 0
  let h := st.getD 7 0
  let t1 := w32 (h + bigS1 e + ch32 e f g + kw.1 + kw.2)
  let t2 := w32 (bigS0 a + maj32 a b c)
  [w32 (t1 + t2), a, b, c, w32 (d + t1), e, f, g]

/-- Process one 64-byte chunk. -/
def shaChunk (h : List Nat) (chunk : List Nat) : List Nat :=
  let st := (k64.zip (schedule (toWords chunk))).foldl shaRound h
  (h.zip st).map (fun p => w32 (p.1 + p.2))

/-- SHA-256 of a byte sequence, producing 32 bytes.  Checked against the
reference test vectors (for example `sha256 "abc"`). -/
def sha256 (msg : List Nat) : List Nat :=
  ((chunkList 63 (shaPad msg)).foldl shaChunk h0).foldr (fun w acc => beBytes 4 w ++ acc) []

def hexDigit (n : Nat) : Char := (str "0123456789abcdef").getD n '0'

/-- Lowercase hexadecimal rendering of bytes, as Go's `hex.EncodeToString`. -/
def hexEncode (l : Bytes) : Str :=
  l.foldr (fun b acc => hexDigit (b / 16) :: hexDigit (b % 16) :: acc) []

/-- Embeds `ComputeAuditHash` (auth/hash.go): SHA-256 over `prevHash ∥ data`,
hex encoded. -/
def ComputeAuditHash (prevHash data : Str) : Str :=
  hexEncode (sha256 (strBytes (prevHash ++ data)))

def digitChar (n : Nat) : Char := (str "0123456789").getD n '0'

/-- Fuel-driven decimal rendering (structural recursion for kernel reduction);
`natDigits` supplies sufficient fuel. -/
def natDigitsAux : Nat → Nat → Str
  | 0, _ => []
  | Nat.succ fuel, n =>
    if n < 10 then [digitChar n] else natDigitsAux fuel (n / 10) ++ [digitChar (n % 10)]

/-- Decimal digits of `n`, most significant first, as Go's `fmt.Sprintf "%d"`. -/
def natDigits (n : Nat) : Str := natDigitsAux (n + 1) n

def digitVal (c : Char) : Nat := c.toNat - 48

/-- Numeric value of a digit string (most significant first). -/
def natFromDigits (s : Str) : Nat := s.foldl (fun a c => a * 10 + digitVal c) 0

/-- Split a leading run of decimal digits from the rest, as `fmt.Sscanf` does
for a `%d` verb. -/
def takeDigits : Str → Str × Str
  | [] => ([], [])
  | c :: rest =>
    if c.isDigit then
      let p := takeDigits rest
      (c :: p.1, p.2)
    else ([], c :: rest)

/-- Embeds the `fmt.Sscanf(parts[3], "m=%d,t=%d,p=%d", …)` call of
`verifyArgon2` (auth/hash.go): literal characters must match and each `%d`
needs at least one digit; trailing input is ignored. -/
def parseParams (s : Str) : Option (Nat × Nat × Nat) :=
  match s with
  | 'm' :: '=' :: r1 =>
    let p1 := takeDigits r1
    if p1.1 = [] then none else
    match p1.2 with
    | ',' :: 't' :: '=' :: r3 =>
      let p2 := takeDigits r3
      if p2.1 = [] then none else
      match p2.2 with
      | ',' :: 'p' :: '=' :: r5 =>
        let p3 := takeDigits r5
        if p3.1 = [] then none else
        some (natFromDigits p1.1, natFromDigits p2.1, natFromDigits p3.1)
      | _ => none
    | _ => none
  | _ => none

/-- Split on a separator character, as Go's `strings.Split` with a one-character
separator. -/
def splitOnChar (sep : Char) : Str → List Str
  | [] => [[]]
  | c :: rest =>
    if c = sep then [] :: splitOnChar sep rest
    else
      match splitOnChar sep rest with
      | [] => [[c]]
      | h :: t => (c :: h) :: t

/-- Base64 without padding: 6-bit groups of the input bytes. -/
def b64sextets : Bytes → List Nat
  | [] => []
  | [a] => [a / 4, a % 4 * 16]
  | [a, b] => [a / 4, a % 4 * 16 + b / 16, b % 16 * 4]
  | a :: b :: c :: rest =>
    a / 4 :: (a % 4 * 16 + b / 16) :: (b % 16 * 4 + c / 64) :: c % 64 :: b64sextets rest

def stdAlphabet : Str :=
  str "ABCDEFGHIJKLMNOPQRSTUVWXYZabcdefghijklmnopqrstuvwxyz0123456789+/"

def urlAlphabet : Str :=
  str "ABCDEFGHIJKLMNOPQRSTUVWXYZabcdefghijklmnopqrstuvwxyz0123456789-_"

def b64encodeWith (alpha : Str) (bs : Bytes) : Str :=
  (b64sextets bs).map (fun v => alpha.getD v 'A')

def b64charVal (alpha : Str) (c : Char) : Option Nat :=
  let i := alpha.indexOf c
  if i < alpha.length then some i else none

/-- Reassemble bytes from 6-bit groups; Go's default (non-strict) decoder
ignores unused trailing bits and rejects a single leftover group. -/
def unSextets : List Nat → Option Bytes
  | [] => some []
  | [_] => none
  | [a, b] => some [a * 4 + b / 16]
  | [a, b, c] => some [a * 4 + b / 16, b % 16 * 16 + c / 4]
  | a :: b :: c :: d :: rest =>
    (unSextets rest).map (fun r =>
      (a * 4 + b / 16) :: (b % 16 * 16 + c / 4) :: (c % 4 * 64 + d) :: r)

def b64decodeWith (alpha : Str) (s : Str) : Option Bytes :=
  (s.mapM (b64charVal alpha)).bind unSextets

/-- Go's `base64.RawURLEncoding.EncodeToString`. -/
def RawURLEncode (bs : Bytes) : Str := b64encodeWith urlAlphabet bs

/-- Go's `base64.RawStdEncoding.EncodeToString`. -/
def RawStdEncode (bs : Bytes) : Str := b64encodeWith stdAlphabet bs

/-- Go's `base64.RawStdEncoding.DecodeString`. -/
def RawStdDecode (s : Str) : Option Bytes := b64decodeWith stdAlphabet s

/-- External cryptographic primitives used by auth/hash.go: bcrypt and
argon2 are library calls, modelled as parameters.  The salt drawn by
`rand.Read` inside `bcrypt.GenerateFromPassword` / `hashArgon2` is made an
explicit argument (randomness as input). -/
structure HashPrims where
  /-- `bcrypt.GenerateFromPassword`: cost, salt randomness, password bytes. -/
  bcryptHash : Nat → Bytes → Bytes → Str
  /-- `bcrypt.CompareHashAndPassword(hash, password) == nil`. -/
  bcryptCheck : Str → Bytes → Bool
  /-- `argon2.IDKey(password, salt, time, memory, threads, keyLen)`. -/
  argon2Key : Bytes → Bytes → Nat → Nat → Nat → Nat → Bytes

/-- Documented behaviour of the external primitives (all satisfiable; no
collision-freedom is assumed here — that is hypothesised pointwise where a
claim needs it):  bcrypt hashes use the `$2…` modular-crypt form and verify
their own password; argon2 output has the requested length and is bytes. -/
structure HashPrimsOK (P : HashPrims) : Prop where
  bcrypt_tag : ∀ c s d, (str "$2").isPrefixOf (P.bcryptHash c s d) = true
  bcrypt_rt : ∀ c s d, P.bcryptCheck (P.bcryptHash c s d) d = true
  argon2_len : ∀ pw s t m p n, (P.argon2Key pw s t m p n).length = n
  argon2_bytes : ∀ pw s t m p n, ∀ b ∈ P.argon2Key pw s t m p n, b < 256

/-- Embeds auth/config.go `Config` (the fields the embedded code reads).
Durations are nanoseconds. -/
structure Config where
  APIKeyHashAlgorithm : Str
  BcryptCost : Nat
  Argon2Time : Nat
  Argon2Memory : Nat
  Argon2Threads : Nat
  KeyRotationWindow : Int
  EnableAuditLog : Bool

/-- Embeds the `KeyPrefix` constant `"ppk_"` of auth/hash.go. -/
def KeyTag : Str := str "ppk_"

/-- Embeds `GenerateAPIKey` (auth/hash.go) with the 32 random bytes as input:
returns the raw key `ppk_<base64url>` and the display prefix (first 8
characters of the encoded portion, or all of it when shorter). -/
def GenerateAPIKey (keyBytes : Bytes) : Str × Str :=
  let encoded := RawURLEncode keyBytes
  (KeyTag ++ encoded, encoded.take 8)

/-- Go's `strings.TrimPrefix(rawKey, KeyPrefix)` combined with the
`keyData == rawKey` test: `some` of the stripped key when the tag is present,
`none` otherwise. -/
def trimTag (raw : Str) : Option Str :=
  if KeyTag.isPrefixOf raw then some (raw.drop 4) else none

inductive HashErr where
  | invalidKey
deriving DecidableEq

/-- Embeds `hashArgon2` (auth/hash.go): fresh-salt argon2id hash rendered as
`$argon2id$v=19$m=<M>,t=<T>,p=<P>$<salt-b64>$<hash-b64>`. -/
def hashArgon2 (P : HashPrims) (salt : Bytes) (keyData : Str) (cfg : Config) : Str :=
  let hash := P.argon2Key (strBytes keyData) salt cfg.Argon2Time cfg.Argon2Memory cfg.Argon2Threads 32
  str "$argon2id$v=19$m=" ++ natDigits cfg.Argon2Memory ++ str ",t=" ++ natDigits cfg.Argon2Time ++
    str ",p=" ++ natDigits cfg.Argon2Threads ++ '$' :: RawStdEncode salt ++ '$' :: RawStdEncode hash

/-- Embeds `HashKey` (auth/hash.go): strips the `ppk_` tag (error
`ErrInvalidKey` when absent) and dispatches on the configured algorithm,
defaulting to bcrypt for unknown names. -/
def HashKey (P : HashPrims) (salt : Bytes) (rawKey : Str) (cfg : Config) : Except HashErr Str :=
  match trimTag rawKey with
  | none => .error .invalidKey
  | some keyData =>
    if cfg.APIKeyHashAlgorithm = str "bcrypt" then
      .ok (P.bcryptHash cfg.BcryptCost salt (strBytes keyData))
    else if cfg.APIKeyHashAlgorithm = str "argon2" then
      .ok (hashArgon2 P salt keyData cfg)
    else
      .ok (P.bcryptHash cfg.BcryptCost salt (strBytes keyData))

/-- Embeds `verifyArgon2` (auth/hash.go): split the stored hash on `$`,
re-read the parameters, decode salt and digest, recompute and compare. -/
def verifyArgon2 (P : HashPrims) (data encoded : Str) : Bool :=
  let parts := splitOnChar '$' encoded
  if parts.length ≠ 6 then false
  else
    match parseParams (parts.getD 3 []) with
    | none => false
    | some (memory, time, threads) =>
      match RawStdDecode (parts.getD 4 []) with
      | none => false
      | some salt =>
        match RawStdDecode (parts.getD 5 []) with
        | none => false
        | some expected =>
          P.argon2Key (strBytes data) salt time memory threads expected.length == expected

/-- Embeds `VerifyKey` (auth/hash.go): strip the tag, detect the algorithm
from the stored-hash format (`$2…` bcrypt, `$argon2…` argon2id), and return
`false` for anything else. -/
def VerifyKey (P : HashPrims) (rawKey storedHash : Str) (_cfg : Config) : Bool :=
  match trimTag rawKey with
  | none => false
  | some keyData =>
    if (str "$2").isPrefixOf storedHash then P.bcryptCheck storedHash (strBytes keyData)
    else if (str "$argon2").isPrefixOf storedHash then verifyArgon2 P keyData storedHash
    else false

/-- Prefix-free rendering of a byte sequence, used by the model primitives. -/
def bytesEnc : Bytes → Str :=
  List.foldr (fun n acc => natDigits n ++ '.' :: acc) []

/-- A concrete instance of the external primitives satisfying `HashPrimsOK`,
used to evaluate the development on closed inputs. -/
def modelPrims : HashPrims where
  bcryptHash := fun _ _ d => str "$2b$" ++ bytesEnc d
  bcryptCheck := fun h d => h == str "$2b$" ++ bytesEnc d
  argon2Key := fun pw s _ _ _ n => (pw.map (· % 256) ++ s.map (· % 256) ++ List.replicate n 0).take n

/-- Association-list lookup; Go maps are modelled as association lists with
replace-on-insert, so keys stay unique. -/
def alookup [BEq κ] (l : List (κ × α)) (k : κ) : Option α :=
  (l.find? (fun p => p.1 == k)).map (·.2)

/-- Association-list insert with replacement (Go map assignment). -/
def aset [BEq κ] : List (κ × α) → κ → α → List (κ × α)
  | [], k, v => [(k, v)]
  | (k', v') :: rest, k, v =>
    if k' == k then (k, v) :: rest else (k', v') :: aset rest k v

/-- Embeds the `Tenant` record (auth/domain.go); timestamps are integers. -/
structure Tenant where
  ID : Str
  Name : Str
  Plan : Str
  Status : Str
  CreatedAt : Int
deriving DecidableEq

/-- Embeds the `APIKey` record (auth/domain.go).  `KeyPfx` is the stored
display prefix field. -/
structure APIKey where
  ID : Str
  TenantID : Str
  Name : Str
  KeyPfx : Str
  KeyHash : Str
  Scopes : List Str
  RateLimit : Int
  ExpiresAt : Option Int
  LastUsedAt : Option Int
  CreatedAt : Int
  RevokedAt : Option Int
  Rotated : Bool
  RotatedFrom : Option Str
deriving DecidableEq

/-- Embeds `InMemoryAPIKeyStore` (auth/store.go): `keys`, the `keyHash`
reverse index, and `tenants`, with its `Config`. -/
structure StoreState where
  cfg : Config
  keys : List (Str × APIKey)
  keyHash : List (Str × Str)
  tenants : List (Str × Tenant)

inductive AuthErr where
  | invalidAPIKey
  | keyNotFound
  | cannotRotateRevoked
  | invalidKeyFormat
deriving DecidableEq

/-- Key-scanning loop of `ValidateKey` (auth/store.go lines 36-44).  Go map
iteration order is unspecified; the list order stands in for it, and the
claims are evaluated on stores with at most one matching key, where the
order is irrelevant. -/
def validateKeyGo (P : HashPrims) (cfg : Config) (tenants : List (Str × Tenant)) (rawKey : Str) :
    List (Str × APIKey) → Except AuthErr (Tenant × APIKey)
  | [] => .error .invalidAPIKey
  | (_, key) :: rest =>
    if VerifyKey P rawKey key.KeyHash cfg then
      match alookup tenants key.TenantID with
      | none => .error .invalidAPIKey
      | some tenant => .ok (tenant, key)
    else validateKeyGo P cfg tenants rawKey rest

/-- Embeds `ValidateKey` (auth/store.go lines 31-47): scans all stored keys,
returns the first whose hash verifies together with its tenant, and
`ErrInvalidAPIKey` when nothing matches or the owning tenant is absent.
Note that no lifecycle filtering happens here. -/
def ValidateKey (P : HashPrims) (st : StoreState) (rawKey : Str) : Except AuthErr (Tenant × APIKey) :=
  validateKeyGo P st.cfg st.tenants rawKey st.keys

/-- Embeds `RotateKey` (auth/store.go lines 92-141).  The generated random
bytes, the hashing salt, the fresh key id and `time.Now()` are inputs. -/
def RotateKey (P : HashPrims) (st : StoreState) (oldKeyID : Str) (newRandom salt : Bytes)
    (newKeyID : Str) (now : Int) : Except AuthErr (APIKey × Str × StoreState) :=
  match alookup st.keys oldKeyID with
  | none => .error .keyNotFound
  | some oldKey =>
    if oldKey.RevokedAt.isSome then .error .cannotRotateRevoked
    else
      let rawKey := (GenerateAPIKey newRandom).1
      let pfx := (GenerateAPIKey newRandom).2
      match HashKey P salt rawKey st.cfg with
      | .error _ => .error .invalidKeyFormat
      | .ok hash =>
        let expiresAt := now + st.cfg.KeyRotationWindow
        let oldKey' := { oldKey with Rotated := true, ExpiresAt := some expiresAt }
        let newKey : APIKey :=
          { ID := newKeyID, TenantID := oldKey.TenantID, Name := oldKey.Name ++ str " (rotated)",
            KeyPfx := pfx, KeyHash := hash, Scopes := oldKey.Scopes,
            RateLimit := oldKey.RateLimit, ExpiresAt := none, LastUsedAt := none,
            CreatedAt := now, RevokedAt := none, Rotated := false, RotatedFrom := some oldKeyID }
        .ok (newKey, rawKey,
          { st with keys := aset (aset st.keys oldKeyID oldKey') newKeyID newKey,
                    keyHash := aset st.keyHash hash newKeyID })

/-- Embeds `RevokeKey` (auth/store.go lines 144-156). -/
def RevokeKey (st : StoreState) (keyID : Str) (now : Int) : Except AuthErr StoreState :=
  match alookup st.keys keyID with
  | none => .error .keyNotFound
  | some key => .ok { st with keys := aset st.keys keyID { key with RevokedAt := some now } }

/-- Outcome of the post-lookup checks of the auth middleware. -/
inductive GateOutcome where
  | success (tenantID keyID : Str) (scopes : List Str)
  | tenantSuspended
  | keyExpired
  | keyRevoked
deriving DecidableEq

/-- Revocation check and principal construction (auth/middleware.go
lines 89-102). -/
def gateAfterExpiry (tenant : Tenant) (apiKey : APIKey) : GateOutcome :=
  if apiKey.RevokedAt.isSome then .keyRevoked
  else .success tenant.ID apiKey.ID apiKey.Scopes

/-- Embeds the tenant-status, expiration (with rotation grace) and revocation
checks of `Middleware` (auth/middleware.go lines 64-102), applied to the pair
returned by `ValidateKey`.  `now` is `time.Now()`; the grace test is
`apiKey.ExpiresAt.Before(now - KeyRotationWindow)`. -/
def authGateCheck (tenant : Tenant) (apiKey : APIKey) (now : Int) (cfg : Config) : GateOutcome :=
  if tenant.Status ≠ str "active" then .tenantSuspended
  else
    match apiKey.ExpiresAt with
    | some exp =>
      if now > exp then
        if apiKey.Rotated then
          if exp < now - cfg.KeyRotationWindow then .keyExpired
          else gateAfterExpiry tenant apiKey
        else .keyExpired
      else gateAfterExpiry tenant apiKey
    | none => gateAfterExpiry tenant apiKey

/-- Embeds `AuditLogEntry` (auth/domain.go).  `Ts` carries the RFC3339
rendering of the timestamp, which is all the embedded code reads. -/
structure AuditLogEntry where
  ID : Str
  TenantID : Str
  CorrID : Str
  Action : Str
  KeyID : Str
  IPAddress : Str
  UserAgent : Str
  Ts : Str
  PrevHash : Str
  Hash : Str
deriving DecidableEq

/-- Embeds the entry map of `InMemoryAuthAuditRecorder` (auth/store.go):
tenant id → entries in append order. -/
abbrev RecorderState := List (Str × List AuditLogEntry)

/-- Embeds `Last` (auth/store.go lines 254-263): the most recent entry for a
tenant, `none` when there is none (the Go version returns an error then). -/
def recLast (rec : RecorderState) (tenantID : Str) : Option AuditLogEntry :=
  ((alookup rec tenantID).getD []).getLast?

/-- Embeds `Record` (auth/store.go lines 245-251): append under the entry's
tenant id. -/
def recAppendEntry (rec : RecorderState) (e : AuditLogEntry) : RecorderState :=
  aset rec e.TenantID ((alookup rec e.TenantID).getD [] ++ [e])

/-- The `fmt.Sprintf("%s|%s|%s|%s|%s", ID, TenantID, Action, ts, PrevHash)`
payload used by the middleware's audit writers. -/
def authAuditPayload (e : AuditLogEntry) : Str :=
  e.ID ++ '|' :: e.TenantID ++ '|' :: e.Action ++ '|' :: e.Ts ++ '|' :: e.PrevHash

/-- Per-append inputs of the middleware audit writers that Go draws from the
request and the clock: generated entry id, correlation id, key id, client ip,
user agent, RFC3339 timestamp. -/
structure AuthAuditInput where
  id : Str
  corr : Str
  keyId : Str
  ip : Str
  ua : Str
  ts : Str
deriving DecidableEq

/-- Embeds `recordAuthSuccess` (auth/middleware.go lines 247-273): link to the
last entry of the tenant (empty hash when there is none), hash
`prevHash ∥ payload`, append. -/
def recordAuthSuccess (rec : RecorderState) (tenantID : Str) (inp : AuthAuditInput) :
    RecorderState :=
  let prevHash := match recLast rec tenantID with
    | some prev => prev.Hash
    | none => []
  let e1 : AuditLogEntry :=
    { ID := inp.id, TenantID := tenantID, CorrID := inp.corr, Action := str "auth.success",
      KeyID := inp.keyId, IPAddress := inp.ip, UserAgent := inp.ua, Ts := inp.ts,
      PrevHash := prevHash, Hash := [] }
  recAppendEntry rec { e1 with Hash := ComputeAuditHash e1.PrevHash (authAuditPayload e1) }

/-- Embeds `recordAuthFailure` (auth/middleware.go lines 218-245): identical
to the success case except that the previous hash is looked up only when the
tenant id is non-empty. -/
def recordAuthFailure (rec : RecorderState) (tenantID action : Str) (inp : AuthAuditInput) :
    RecorderState :=
  let prevHash :=
    if tenantID = [] then []
    else match recLast rec tenantID with
      | some prev => prev.Hash
      | none => []
  let e1 : AuditLogEntry :=
    { ID := inp.id, TenantID := tenantID, CorrID := inp.corr, Action := action,
      KeyID := [], IPAddress := inp.ip, UserAgent := inp.ua, Ts := inp.ts,
      PrevHash := prevHash, Hash := [] }
  recAppendEntry rec { e1 with Hash := ComputeAuditHash e1.PrevHash (authAuditPayload e1) }

/-- The audit appends the auth middleware can perform. -/
inductive AuthAuditOp where
  | success (tenantID : Str) (inp : AuthAuditInput)
  | failure (tenantID action : Str) (inp : AuthAuditInput)

/-- Apply a sequence of middleware audit appends to a recorder. -/
def applyAuthAuditOps (rec : RecorderState) : List AuthAuditOp → RecorderState
  | [] => rec
  | .success tid inp :: rest => applyAuthAuditOps (recordAuthSuccess rec tid inp) rest
  | .failure tid action inp :: rest => applyAuthAuditOps (recordAuthFailure rec tid action inp) rest

/-- The hash-chain shape the specification claims: starting from `prev`, each
entry links to its predecessor and hashes `SHA-256(prevHash ∥ payload)` with
`payload = entryId|tenantId|action|timestamp|prevHash`. -/
def chainFrom (prev : Str) : List AuditLogEntry → Prop
  | [] => True
  | e :: rest =>
    e.PrevHash = prev ∧ e.Hash = ComputeAuditHash e.PrevHash (authAuditPayload e) ∧
      chainFrom e.Hash rest

/-- Embeds `AuditLog` (auditzip/models.go).  `Ts` carries the RFC3339Nano
rendering of the timestamp. -/
structure AZAuditLog where
  AuditID : Str
  CorrID : Str
  TenantID : Str
  Actor : Str
  Action : Str
  CriteriaHash : Str
  Ts : Str
  Hash : Str
  PrevHash : Str
deriving DecidableEq

/-- Embeds the per-tenant entry map of `MemoryAuditRecorder`
(auditzip/service.go). -/
abbrev AZRecState := List (Str × List AZAuditLog)

def azLast (rec : AZRecState) (tenantID : Str) : Option AZAuditLog :=
  ((alookup rec tenantID).getD []).getLast?

def azAppend (rec : AZRecState) (e : AZAuditLog) : AZRecState :=
  aset rec e.TenantID ((alookup rec e.TenantID).getD [] ++ [e])

/-- Embeds `hashAudit` (auditzip/audit.go): SHA-256 over
`corrID|tenantID|actor|action|tsNano|prevHash` — note no separate previous
hash is prepended and the field set differs from the auth payload. -/
def hashAudit (e : AZAuditLog) : Str :=
  hexEncode (sha256 (strBytes
    (e.CorrID ++ '|' :: e.TenantID ++ '|' :: e.Actor ++ '|' :: e.Action ++ '|' ::
      e.Ts ++ '|' :: e.PrevHash)))

/-- Embeds `HashChain` (auditzip/audit.go lines 17-28): link to the last entry
(`Last`'s error is ignored, leaving the zero value whose hash is empty), hash
with `hashAudit`, append. -/
def HashChain (rec : AZRecState) (tenantID : Str) (entry : AZAuditLog) :
    AZAuditLog × AZRecState :=
  let prevHash := match azLast rec tenantID with
    | some p => p.Hash
    | none => []
  let e1 := { entry with PrevHash := prevHash }
  let e2 := { e1 with Hash := hashAudit e1 }
  (e2, azAppend rec e2)

/-- Chain shape actually produced by the auditzip journal: linkage through
`PrevHash` with `hashAudit` as the entry hash. -/
def azChainFrom (prev : Str) : List AZAuditLog → Prop
  | [] => True
  | e :: rest => e.PrevHash = prev ∧ e.Hash = hashAudit e ∧ azChainFrom e.Hash rest

/-- Job states of the export engine (generated openapi enum used by
auditzip/queue.go). -/
inductive JStatus where
  | queued
  | running
  | succeeded
  | failed
  | canceled
deriving DecidableEq

/-- Embeds `AuditZipResult` of the generated openapi model used by queue.go. -/
structure AZResult where
  SignedUrl : String
  ExpiresAt : Int
  Size : Int
deriving DecidableEq

/-- Embeds `InternalError` of the generated openapi model used by queue.go. -/
structure AZError where
  Code : String
  Message : String
  Retryable : Bool
  CorrId : String
deriving DecidableEq

/-- Embeds `AuditZipJob` of the generated openapi model used by queue.go. -/
structure AZJob where
  JobId : String
  Status : JStatus
  Progress : Int
  RequestedAt : Int
  RetryCount : Nat
  CriteriaHash : Option String
  CanCancel : Option Bool
  StartedAt : Option Int
  FinishedAt : Option Int
  Result : Option AZResult
  Error : Option AZError
deriving DecidableEq

/-- Embeds `AuditZipRequest` (fields are inert for the queue logic; the
float64 amounts are modelled as integers). -/
structure AZRequest where
  From : String
  To : String
  Partner : Option String
  MinAmount : Option Int
  MaxAmount : Option Int
  Format : String
deriving DecidableEq

/-- Embeds `jobState` (auditzip/queue.go lines 18-25); the cancellable
context is not represented. -/
structure JobStateR where
  job : AZJob
  tenantID : String
  criteriaHash : String
  idempotencyKey : String
  request : AZRequest
deriving DecidableEq

/-- Embeds the three maps of `JobQueue` (auditzip/queue.go lines 46-54).
`byKey` and `byCriteria` store job ids standing in for the shared
`*jobState` pointers; `jobs` is the authoritative map. -/
structure QueueState where
  jobs : List (String × JobStateR)
  byKey : List (String × String)
  byCriteria : List (String × String)
deriving DecidableEq

/-- Queue-relevant configuration (auditzip/config.go); durations are
nanoseconds. -/
structure QueueConfig where
  MaxQueueDepth : Int
  MaxRetries : Nat
  RetryBaseDelay : Int
  QueueRetryAfter : Int
deriving DecidableEq

/-- Embeds `isTerminal` (auditzip/queue.go lines 367-369). -/
def isTerminal (s : JStatus) : Bool :=
  s == .succeeded || s == .failed || s == .canceled

/-- Embeds `activeCountLocked` (auditzip/queue.go lines 378-386). -/
def activeCount (st : QueueState) : Nat :=
  st.jobs.countP (fun p => !isTerminal p.2.job.Status)

/-- Embeds `cloneJob` (auditzip/queue.go lines 338-365): a field-by-field
value copy (pointer fields are deep-copied in Go; values are values here). -/
def cloneJob (j : AZJob) : AZJob :=
  { JobId := j.JobId, Status := j.Status, Progress := j.Progress,
    RequestedAt := j.RequestedAt, RetryCount := j.RetryCount,
    CriteriaHash := j.CriteriaHash, CanCancel := j.CanCancel,
    StartedAt := j.StartedAt, FinishedAt := j.FinishedAt,
    Result := j.Result, Error := j.Error }

inductive ConflictReason where
  | idempotencyBodyMismatch
  | duplicateJob
  | notCancelable
deriving DecidableEq

inductive EnqueueResult where
  | ok (job : AZJob)
  | conflict (reason : ConflictReason) (jobID : String)
  | rateLimited (retryAfter : Int)
deriving DecidableEq

/-- Embeds `Enqueue` (auditzip/queue.go lines 67-115).  The fresh UUID and
`time.Now()` are inputs.  Index entries are dereferenced through `jobs`
(standing in for the shared pointers); a dangling index entry — impossible in
Go, where the pointer is always valid — falls through to creation. -/
def Enqueue (st : QueueState) (cfg : QueueConfig) (tenantID idempotencyKey criteriaHash : String)
    (req : AZRequest) (uuid : String) (now : Int) : EnqueueResult × QueueState :=
  if cfg.MaxQueueDepth > 0 ∧ (activeCount st : Int) ≥ cfg.MaxQueueDepth then
    (.rateLimited cfg.QueueRetryAfter, st)
  else
    let key := tenantID ++ ":" ++ idempotencyKey
    let criteriaKey := tenantID ++ ":" ++ criteriaHash
    let create : EnqueueResult × QueueState :=
      let job : AZJob :=
        { JobId := uuid, Status := .queued, Progress := 0, RequestedAt := now,
          RetryCount := 0, CriteriaHash := some criteriaHash, CanCancel := some false,
          StartedAt := none, FinishedAt := none, Result := none, Error := none }
      let state : JobStateR :=
        { job := job, tenantID := tenantID, criteriaHash := criteriaHash,
          idempotencyKey := idempotencyKey, request := req }
      (.ok (cloneJob job),
        { jobs := aset st.jobs uuid state, byKey := aset st.byKey key uuid,
          byCriteria := aset st.byCriteria criteriaKey uuid })
    let criteriaCheck : EnqueueResult × QueueState :=
      match (alookup st.byCriteria criteriaKey).bind (alookup st.jobs) with
      | some s => if !isTerminal s.job.Status then (.conflict .duplicateJob s.job.JobId, st) else create
      | none => create
    match (alookup st.byKey key).bind (alookup st.jobs) with
    | some s =>
      if s.criteriaHash == criteriaHash && s.tenantID == tenantID then (.ok (cloneJob s.job), st)
      else (.conflict .idempotencyBodyMismatch s.job.JobId, st)
    | none => criteriaCheck

inductive CancelOut where
  | notFound
  | notCancelable (job : AZJob)
  | canceledOk (job : AZJob)
deriving DecidableEq

/-- Embeds `Cancel` (auditzip/queue.go lines 117-141); `time.Now()` is an
input.  (The call into the worker's context cancel function is an effect on
the worker, not on the job index, and is not represented.) -/
def Cancel (st : QueueState) (tenantID jobID : String) (now : Int) : CancelOut × QueueState :=
  match alookup st.jobs jobID with
  | none => (.notFound, st)
  | some s =>
    if s.tenantID != tenantID then (.notFound, st)
    else if s.job.Status != .running then (.notCancelable (cloneJob s.job), st)
    else
      let j : AZJob :=
        { s.job with
          Status := .canceled,
          FinishedAt := some now,
          Progress := min 100 s.job.Progress,
          Error := some { Code := "CANCELED", Message := "canceled by user",
                          Retryable := true, CorrId := "" },
          CanCancel := some false,
          Result := none }
      (.canceledOk (cloneJob j), { st with jobs := aset st.jobs jobID { s with job := j } })

/-- Core of `updateWithErr` (auditzip/queue.go lines 312-324) for mutations
that cannot fail: apply `f` to the stored job, no-op when the id is absent. -/
def updateJob (st : QueueState) (jobID : String) (f : AZJob → AZJob) : QueueState :=
  match alookup st.jobs jobID with
  | none => st
  | some s => { st with jobs := aset st.jobs jobID { s with job := f s.job } }

/-- Embeds `updateStatus` (auditzip/queue.go lines 304-310): set the status
unconditionally, then apply the extra mutation. -/
def updateStatus (st : QueueState) (jobID : String) (status : JStatus) (mutate : AZJob → AZJob) :
    QueueState :=
  updateJob st jobID (fun j => mutate { j with Status := status })

/-- Embeds `completeJob` (auditzip/queue.go lines 263-273). -/
def completeJob (st : QueueState) (jobID : String) (now : Int) (signedURL : String)
    (expiresAt size : Int) : QueueState :=
  updateStatus st jobID .succeeded (fun j =>
    { j with
      FinishedAt := some now,
      Progress := 100,
      Result := some { SignedUrl := signedURL, ExpiresAt := expiresAt, Size := size },
      CanCancel := some false,
      Error := none })

/-- Embeds `failJob` (auditzip/queue.go lines 275-284). -/
def failJob (st : QueueState) (jobID : String) (now : Int) (msg : String) : QueueState :=
  updateStatus st jobID .failed (fun j =>
    { j with
      FinishedAt := some now,
      CanCancel := some false,
      Result := none,
      Error := some { Code := "INTERNAL_ERROR", Message := msg, Retryable := true, CorrId := "" } })

inductive QErr where
  | canceled
  | notFound
deriving DecidableEq

/-- Embeds `bumpProgress` (auditzip/queue.go lines 286-296): fails with the
cancellation signal on a canceled job, otherwise monotonically raises the
progress. -/
def bumpProgress (st : QueueState) (jobID : String) (progress : Int) : Except QErr QueueState :=
  match alookup st.jobs jobID with
  | none => .error .notFound
  | some s =>
    if s.job.Status == .canceled then .error .canceled
    else if progress > s.job.Progress then
      .ok { st with jobs := aset st.jobs jobID { s with job := { s.job with Progress := progress } } }
    else .ok st

/-- Embeds `setRetryCount` (auditzip/queue.go lines 298-302): note it re-sets
the status to `running` via `updateStatus`. -/
def setRetryCount (st : QueueState) (jobID : String) (retries : Nat) : QueueState :=
  updateStatus st jobID .running (fun j => { j with RetryCount := retries })

/-- Outcome of one `processJob` attempt, as seen by the retry loop of
`runJob`: success carries the signed URL, its expiry, the artifact size and
the completion time; a transient failure carries the failure time and the
error message; `canceledO` is `context.Canceled`. -/
inductive AttemptOutcome where
  | ok (signedURL : String) (expiresAt size tFinish : Int)
  | transient (tFail : Int) (msg : String)
  | canceledO

/-- The retry loop of `runJob` (auditzip/queue.go lines 165-186), with the
attempt outcomes as an oracle.  Returns the final queue state, the backoff
waits performed (`RetryBaseDelay · 2^(attempt-1)`, exact for the realistic
exponents where Go's float `math.Pow` is exact), and the observed
`(status, retryCount)` right after each `setRetryCount`.  `fuel` bounds the
recursion; `runJob` passes `MaxRetries`, which is sufficient because the
loop re-enters only while `attempt < MaxRetries`. -/
def attemptObs (st1 : QueueState) (jobID : String) : List (JStatus × Nat) :=
  match alookup st1.jobs jobID with
  | some s => [(s.job.Status, s.job.RetryCount)]
  | none => []

def runAttempts (cfg : QueueConfig) (oracle : Nat → AttemptOutcome) (jobID : String) :
    Nat → Nat → QueueState → QueueState × List Int × List (JStatus × Nat)
  | 0, attempt, st =>
    let st1 := setRetryCount st jobID (attempt - 1)
    let obs := attemptObs st1 jobID
    match oracle attempt with
    | .ok url exp size tF => (completeJob st1 jobID tF url exp size, [], obs)
    | .canceledO => (st1, [], obs)
    | .transient tF msg =>
      if attempt ≥ cfg.MaxRetries then (failJob st1 jobID tF msg, [], obs)
      else (st1, [], obs)
  | fuel + 1, attempt, st =>
    let st1 := setRetryCount st jobID (attempt - 1)
    let obs := attemptObs st1 jobID
    match oracle attempt with
    | .ok url exp size tF => (completeJob st1 jobID tF url exp size, [], obs)
    | .canceledO => (st1, [], obs)
    | .transient tF msg =>
      if attempt ≥ cfg.MaxRetries then (failJob st1 jobID tF msg, [], obs)
      else
        let backoff := cfg.RetryBaseDelay * 2 ^ (attempt - 1)
        let r := runAttempts cfg oracle jobID fuel (attempt + 1) st1
        (r.1, backoff :: r.2.1, obs ++ r.2.2)

/-- Embeds `runJob` (auditzip/queue.go lines 153-187): transition to running
(startedAt, cancellable, progress 5) and run the attempt loop from
attempt 1. -/
def runJob (cfg : QueueConfig) (oracle : Nat → AttemptOutcome) (jobID : String)
    (tStart : Int) (st : QueueState) : QueueState × List Int × List (JStatus × Nat) :=
  let st1 := updateStatus st jobID .running (fun j =>
    { j with StartedAt := some tStart, CanCancel := some true, Progress := 5 })
  runAttempts cfg oracle jobID cfg.MaxRetries 1 st1

/-- Embeds `tokenBucket` (auth rate limiter). -/
structure TokenBucket where
  tokens : Int
  lastFill : Int
deriving DecidableEq

/-- Embeds `RateLimiter.Allow` of the auth package: token bucket per key.
`refill` is the oracle value of `int(float64(elapsed)/float64(window)*
float64(rate))`, made an input because Go computes it in floating point.
Returns `((allowed, retryAfter), buckets')`. -/
def authAllow (rate window : Int) (buckets : List (String × TokenBucket)) (key : String)
    (now refill : Int) : (Bool × Int) × List (String × TokenBucket) :=
  match alookup buckets key with
  | none => ((true, 0), aset buckets key { tokens := rate - 1, lastFill := now })
  | some b =>
    let b1 := if refill > 0 then
        { tokens := min rate (b.tokens + refill), lastFill := now }
      else b
    if b1.tokens > 0 then
      ((true, 0), aset buckets key { b1 with tokens := b1.tokens - 1 })
    else ((false, Int.tdiv window rate), aset buckets key b1)

/-- Embeds `tenantRate` (auditzip rate limiter). -/
structure TenantRate where
  count : Int
  windowStart : Int
deriving DecidableEq

/-- Embeds `RateLimiter.Allow` of the auditzip package (validator.go
lines 90-111): fixed window per tenant.  `limit = 0` (the clamp
`NewRateLimiter` applies to non-positive limits, or a nil limiter) admits
everything. -/
def zipAllow (limit window : Int) (states : List (String × TenantRate)) (tenant : String)
    (now : Int) : (Bool × Int) × List (String × TenantRate) :=
  if limit == 0 then ((true, 0), states)
  else
    let state0 := match alookup states tenant with
      | none => { count := 0, windowStart := now : TenantRate }
      | some s => s
    let state1 := if now - state0.windowStart ≥ window then
        { count := 0, windowStart := now : TenantRate }
      else state0
    if state1.count ≥ limit then
      ((false, state1.windowStart + window - now), aset states tenant state1)
    else ((true, 0), aset states tenant { state1 with count := state1.count + 1 })

/-!  Concrete instances used to evaluate the development on closed inputs. -/

/-- A bcrypt configuration as produced by `LoadConfig` defaults
(grace window 24h in nanoseconds). -/
def cfgBcrypt : Config :=
  { APIKeyHashAlgorithm := str "bcrypt", BcryptCost := 12, Argon2Time := 1,
    Argon2Memory := 65536, Argon2Threads := 4, KeyRotationWindow := 86400000000000,
    EnableAuditLog := true }

/-- A configuration whose algorithm name is neither `bcrypt` nor `argon2`. -/
def cfgOther : Config := { cfgBcrypt with APIKeyHashAlgorithm := str "scrypt" }

/-- An argon2 configuration (test-sized parameters). -/
def cfgArgon : Config :=
  { cfgBcrypt with APIKeyHashAlgorithm := str "argon2", Argon2Memory := 16384,
                   Argon2Threads := 2 }

def demoTenant : Tenant :=
  { ID := str "acme", Name := str "Acme", Plan := str "pro", Status := str "active",
    CreatedAt := 0 }

/-- The model-bcrypt hash of the raw key `ppk_demo`. -/
def demoHash : Str := modelPrims.bcryptHash 12 [] (strBytes (str "demo"))

/-- A stored key whose expiration (t = 1000) has passed at t = 2000, not
rotated, owned by the active tenant `acme`. -/
def demoExpiredKey : APIKey :=
  { ID := str "key1", TenantID := str "acme", Name := str "Demo", KeyPfx := str "demo",
    KeyHash := demoHash, Scopes := [str "*"], RateLimit := 0, ExpiresAt := some 1000,
    LastUsedAt := none, CreatedAt := 0, RevokedAt := none, Rotated := false,
    RotatedFrom := none }

/-- Store holding exactly `demoExpiredKey` for tenant `acme`. -/
def demoExpiredStore : StoreState :=
  { cfg := cfgBcrypt, keys := [(str "key1", demoExpiredKey)],
    keyHash := [(demoHash, str "key1")], tenants := [(str "acme", demoTenant)] }

/-- A live (never expiring) stored key for tenant `acme`, to be rotated. -/
def demoLiveKey : APIKey :=
  { demoExpiredKey with ExpiresAt := none }

/-- Store holding exactly `demoLiveKey`; grace window 24 time units. -/
def demoRotateStore : StoreState :=
  { cfg := { cfgBcrypt with KeyRotationWindow := 24 },
    keys := [(str "key1", demoLiveKey)], keyHash := [(demoHash, str "key1")],
    tenants := [(str "acme", demoTenant)] }

/-- Project the stored key `id` out of a `RotateKey` result. -/
def rotatedKeyOf (r : Except AuthErr (APIKey × Str × StoreState)) (id : Str) : Option APIKey :=
  match r with
  | .ok (_, _, st) => alookup st.keys id
  | .error _ => none

/-- The old key as `RotateKey` leaves it when rotating `demoLiveKey` at
t0 = 0 with grace window 24. -/
def demoOldRotated : APIKey := { demoLiveKey with Rotated := true, ExpiresAt := some 24 }

/-- The job record `Enqueue` creates (queue.go lines 89-99). -/
def freshJob (uuid ch : String) (now : Int) : AZJob :=
  { JobId := uuid, Status := .queued, Progress := 0, RequestedAt := now, RetryCount := 0,
    CriteriaHash := some ch, CanCancel := some false, StartedAt := none, FinishedAt := none,
    Result := none, Error := none }

/-- The queue state `Enqueue` leaves after creating a job (queue.go
lines 100-111): the new job state indexed under the job id, the
tenant-scoped idempotency key and the tenant-scoped criteria key. -/
def enqNewState (st : QueueState) (tid idem ch : String) (req : AZRequest) (uuid : String)
    (now : Int) : QueueState :=
  { jobs := aset st.jobs uuid
      { job := freshJob uuid ch now, tenantID := tid, criteriaHash := ch,
        idempotencyKey := idem, request := req },
    byKey := aset st.byKey (tid ++ ":" ++ idem) uuid,
    byCriteria := aset st.byCriteria (tid ++ ":" ++ ch) uuid }

/-- Default-like queue configuration for concrete evaluation. -/
def qcfg : QueueConfig :=
  { MaxQueueDepth := 100, MaxRetries := 3, RetryBaseDelay := 2000000000,
    QueueRetryAfter := 30000000000 }

/-- A concrete export request. -/
def qreq : AZRequest :=
  { From := "2025-01-01", To := "2025-01-31", Partner := none, MinAmount := none,
    MaxAmount := none, Format := "zip" }

/-- A queued job for tenant `acme`, criteria `crit-1`, idempotency `idem-1`. -/
def qJobQueued : AZJob := freshJob "job-1" "crit-1" 0

def qStateQueued : JobStateR :=
  { job := qJobQueued, tenantID := "acme", criteriaHash := "crit-1",
    idempotencyKey := "idem-1", request := qreq }

/-- Queue holding exactly the queued job. -/
def qQueue1 : QueueState :=
  { jobs := [("job-1", qStateQueued)], byKey := [("acme:idem-1", "job-1")],
    byCriteria := [("acme:crit-1", "job-1")] }

/-- The same job after succeeding (a terminal state). -/
def qJobDone : AZJob :=
  { qJobQueued with
    Status := .succeeded,
    Progress := 100,
    FinishedAt := some 50,
    Result := some { SignedUrl := "https://signed/u", ExpiresAt := 600, Size := 42 },
    CanCancel := some false }

def qStateDone : JobStateR := { qStateQueued with job := qJobDone }

/-- Queue holding exactly the succeeded job. -/
def qQueueDone : QueueState :=
  { jobs := [("job-1", qStateDone)], byKey := [("acme:idem-1", "job-1")],
    byCriteria := [("acme:crit-1", "job-1")] }

/-- The same job after being canceled (a terminal state). -/
def qJobCanceled : AZJob :=
  { qJobQueued with
    Status := .canceled,
    FinishedAt := some 30,
    CanCancel := some false,
    Result := none,
    Error := some { Code := "CANCELED", Message := "canceled by user", Retryable := true,
                    CorrId := "" } }

def qStateCanceled : JobStateR := { qStateQueued with job := qJobCanceled }

/-- Queue holding exactly the canceled job. -/
def qQueueCanceled : QueueState :=
  { jobs := [("job-1", qStateCanceled)], byKey := [("acme:idem-1", "job-1")],
    byCriteria := [("acme:crit-1", "job-1")] }

/-- Status of the stored job `id`, if present. -/
def jobStatusOf (st : QueueState) (id : String) : Option JStatus :=
  (alookup st.jobs id).map (fun s => s.job.Status)

/-- The job value left by `failJob` after the final `setRetryCount` of a run
of `mR` failing attempts: failed, retryCount `mR - 1`, finishedAt `t`, error
`{code INTERNAL_ERROR, message m, retryable true}`. -/
def failedJobVal (mR : Nat) (t : Int) (m : String) (j : AZJob) : AZJob :=
  { j with
    Status := .failed,
    RetryCount := mR - 1,
    FinishedAt := some t,
    CanCancel := some false,
    Result := none,
    Error := some { Code := "INTERNAL_ERROR", Message := m, Retryable := true, CorrId := "" } }

/-- Failure time of the k-th attempt in the concrete all-transient run. -/
def tfFail (k : Nat) : Int := 100 * k

/-- Error message of the k-th attempt in the concrete all-transient run. -/
def mfFail (_ : Nat) : String := "transient io"

/-- A worker oracle whose every attempt fails transiently. -/
def oracleFail (k : Nat) : AttemptOutcome := .transient (tfFail k) (mfFail k)

/-- Hash of the last entry, or the incoming previous hash for an empty list. -/
def lastHash (p : Str) (l : List AuditLogEntry) : Str :=
  match l.getLast? with
  | some e => e.Hash
  | none => p

/-- Hash of the last auditzip entry, or the incoming previous hash. -/
def azLastHash (p : Str) (l : List AZAuditLog) : Str :=
  match l.getLast? with
  | some e => e.Hash
  | none => p

/-- Apply a sequence of `HashChain` appends (as `appendAudit` in
auditzip/service.go does, passing the entry's own tenant id). -/
def applyHashChains (rec : AZRecState) : List (Str × AZAuditLog) → AZRecState
  | [] => rec
  | (tid, e) :: rest => applyHashChains (HashChain rec tid e).2 rest

/-- The payload formula the specification claims for every audit entry:
`entryId|tenantId|action|timestamp|prevHash`, here read off an auditzip
entry. -/
def azClaimPayload (e : AZAuditLog) : Str :=
  e.AuditID ++ '|' :: e.TenantID ++ '|' :: e.Action ++ '|' :: e.Ts ++ '|' :: e.PrevHash

/-- The all-empty audit entry (used as a lookup default). -/
def noEntry : AuditLogEntry :=
  { ID := [], TenantID := [], CorrID := [], Action := [], KeyID := [], IPAddress := [],
    UserAgent := [], Ts := [], PrevHash := [], Hash := [] }

def auditInp1 : AuthAuditInput :=
  { id := str "id1", corr := str "c1", keyId := str "k1", ip := str "127.0.0.1",
    ua := str "ua", ts := str "2026-01-02T03:04:05Z" }

def auditInp2 : AuthAuditInput := { auditInp1 with id := str "id2", corr := str "c2" }

/-- Two `auth.missing_key` failures recorded with unknown tenant (chain
tenant `""`), as the middleware does for requests without a credential. -/
def emptyTenantRec : RecorderState :=
  recordAuthFailure (recordAuthFailure [] [] (str "auth.missing_key") auditInp1) []
    (str "auth.missing_key") auditInp2

def azEntry1 : AZAuditLog :=
  { AuditID := str "a1", CorrID := str "c1", TenantID := str "acme", Actor := str "system",
    Action := str "audit.zip.create", CriteriaHash := str "crit",
    Ts := str "2026-01-02T03:04:05Z", Hash := [], PrevHash := [] }

def azEntry2 : AZAuditLog := { azEntry1 with AuditID := str "a2", CorrID := str "c2" }

/-- A concrete middleware audit trace for tenant `acme`. -/
def demoAuthOps : List AuthAuditOp :=
  [.success (str "acme") auditInp1, .failure (str "acme") (str "auth.invalid_key") auditInp2]

/-- A concrete auditzip trace for tenant `acme`. -/
def demoAZOps : List (Str × AZAuditLog) := [(str "acme", azEntry1), (str "acme", azEntry2)]

end PromptPack

namespace PromptPack

/-!  General lemmas about the association-list operations. -/

theorem alookup_cons [BEq κ] (k' : κ) (v' : α) (l : List (κ × α)) (k : κ) :
    alookup ((k', v') :: l) k = if k' == k then some v' else alookup l k := by
  by_cases h : k' == k <;> simp [alookup, List.find?, h]

theorem alookup_aset_self [BEq κ] [LawfulBEq κ] (l : List (κ × α)) (k : κ) (v : α) :
    alookup (aset l k v) k = some v := by
  induction l with
  | nil => simp [aset, alookup_cons]
  | cons p rest ih =>
    obtain ⟨a, b⟩ := p
    by_cases h : a == k
    · simp [aset, h, alookup_cons]
    · rw [show aset ((a, b) :: rest) k v = (a, b) :: aset rest k v from by simp [aset, h]]
      rw [alookup_cons]
      simp [h, ih]

theorem alookup_aset_ne [BEq κ] [LawfulBEq κ] (l : List (κ × α)) (k k' : κ) (v : α)
    (h : k' ≠ k) : alookup (aset l k v) k' = alookup l k' := by
  have hkk : (k == k') = false := by
    rcases hb : k == k' with _ | _
    · rfl
    · exact absurd (eq_of_beq hb).symm h
  induction l with
  | nil => simp [aset, alookup_cons, hkk, alookup]
  | cons p rest ih =>
    obtain ⟨a, b⟩ := p
    by_cases hpk : a == k
    · have ha : a = k := eq_of_beq hpk
      simp [aset, hpk, alookup_cons, hkk, ha]
    · simp only [aset, hpk, if_neg]
      simp [alookup_cons, ih]

/-- Claim C10: the hasher is total over configuration and stored-hash formats.
For a well-formed raw key and a configuration whose algorithm is neither
`bcrypt` nor `argon2`, `HashKey` silently hashes with bcrypt instead of
returning an error, and for any stored hash starting with neither `$2` nor
`$argon2`, `VerifyKey` returns `false` (for every raw key) rather than an
error or panic. -/
theorem hashKey_defaults_bcrypt_verify_unknown_false
    (P : HashPrims) (cfg : Config) (salt : Bytes) (raw keyData : Str)
    (htag : trimTag raw = some keyData)
    (halg1 : cfg.APIKeyHashAlgorithm ≠ str "bcrypt")
    (halg2 : cfg.APIKeyHashAlgorithm ≠ str "argon2") :
    HashKey P salt raw cfg = .ok (P.bcryptHash cfg.BcryptCost salt (strBytes keyData)) ∧
      ∀ stored k', (str "$2").isPrefixOf stored = false →
        (str "$argon2").isPrefixOf stored = false →
        VerifyKey P k' stored cfg = false := by
  constructor
  · simp [HashKey, htag, halg1, halg2]
  · intro stored k' h1 h2
    unfold VerifyKey
    cases trimTag k' <;> simp [h1, h2]

/-- Witness for C10 at a concrete input: `cfgOther` names the algorithm
`scrypt`, the stored hash `plain` has no recognized format. -/
theorem hashKey_defaults_bcrypt_verify_unknown_false_witness :
    HashKey modelPrims [] (str "ppk_demo") cfgOther =
      .ok (modelPrims.bcryptHash cfgOther.BcryptCost [] (strBytes (str "demo"))) ∧
      VerifyKey modelPrims (str "ppk_demo") (str "plain") cfgOther = false := by
  have h := hashKey_defaults_bcrypt_verify_unknown_false modelPrims cfgOther []
    (str "ppk_demo") (str "demo") (by decide) (by decide) (by decide)
  exact ⟨h.1, h.2 (str "plain") (str "ppk_demo") (by decide) (by decide)⟩

/-- Claim C4 is contradicted by the code: `ValidateKey` performs no lifecycle
filtering.  On a store whose only key matches the raw key `ppk_demo` but
expired at t = 1000 (not rotated, active tenant), `ValidateKey` returns the
tenant/key pair instead of the invalid-api-key error; the middleware then
reports `KEY_EXPIRED` at t = 2000 — where the in-repo middleware tests expect
`INVALID_KEY` on the assumption that the store filters expired keys. -/
theorem validateKey_returns_expired_key :
    ValidateKey modelPrims demoExpiredStore (str "ppk_demo") =
        .ok (demoTenant, demoExpiredKey) ∧
      demoExpiredKey.ExpiresAt = some 1000 ∧
      demoExpiredKey.Rotated = false ∧
      demoExpiredKey.RevokedAt = none ∧
      demoTenant.Status = str "active" ∧
      authGateCheck demoTenant demoExpiredKey 2000 demoExpiredStore.cfg = .keyExpired := by
  refine ⟨by rfl, by decide, by decide, by decide, by decide, by decide⟩

/-- The auth gate admits a key without expiration or revocation under an
active tenant. -/
theorem authGate_success_no_expiry (tenant : Tenant) (key : APIKey) (now : Int) (cfg : Config)
    (hact : tenant.Status = str "active") (hexp : key.ExpiresAt = none)
    (hrev : key.RevokedAt = none) :
    authGateCheck tenant key now cfg = .success tenant.ID key.ID key.Scopes := by
  simp [authGateCheck, hact, hexp, gateAfterExpiry, hrev]

/-- The auth gate's treatment of a rotated key with expiry `exp`: admitted up
to `exp + KeyRotationWindow`, expired strictly afterwards. -/
theorem authGate_rotated_key (tenant : Tenant) (key : APIKey) (now exp : Int) (cfg : Config)
    (hact : tenant.Status = str "active") (hexp : key.ExpiresAt = some exp)
    (hrot : key.Rotated = true) (hrev : key.RevokedAt = none)
    (hW : 0 ≤ cfg.KeyRotationWindow) :
    (now ≤ exp + cfg.KeyRotationWindow →
      authGateCheck tenant key now cfg = .success tenant.ID key.ID key.Scopes) ∧
    (exp + cfg.KeyRotationWindow < now → authGateCheck tenant key now cfg = .keyExpired) := by
  constructor
  · intro hnow
    unfold authGateCheck
    rw [hexp]
    simp only [hact]
    by_cases hgt : now > exp
    · have hgrace : ¬ exp < now - cfg.KeyRotationWindow := by omega
      simp [hrot, hgrace, gateAfterExpiry, hrev, hgt]
    · simp [hgt, gateAfterExpiry, hrev]
  · intro hnow
    have hgt : now > exp := by omega
    have hgrace : exp < now - cfg.KeyRotationWindow := by omega
    unfold authGateCheck
    rw [hexp]
    simp [hact, hgt, hrot, hgrace]

/-- Claim C3, amended: after `RotateKey` at `t0` the old key carries
`ExpiresAt = t0 + W` and the rotation flag, and the new key inherits the
tenant and scope set with no expiration; the auth gate admits BOTH keys while
`now ≤ t0 + 2·W` (the middleware grants rotated keys a second grace window on
top of the stored expiry) and rejects the old key with `KEY_EXPIRED` only
once `now > t0 + 2·W`, while the new key always passes. -/
theorem rotateKey_grace_and_cutoff
    (P : HashPrims) (st : StoreState) (oldKeyID : Str) (rnd salt : Bytes) (newKeyID : Str)
    (t0 : Int) (oldKey oldKey' newKey : APIKey) (tenant : Tenant) (hash : Str)
    (hold : alookup st.keys oldKeyID = some oldKey)
    (hrev : oldKey.RevokedAt = none)
    (hhash : HashKey P salt (GenerateAPIKey rnd).1 st.cfg = .ok hash)
    (hne : newKeyID ≠ oldKeyID)
    (hact : tenant.Status = str "active")
    (hW : 0 < st.cfg.KeyRotationWindow)
    (hdefO : oldKey' =
      { oldKey with Rotated := true, ExpiresAt := some (t0 + st.cfg.KeyRotationWindow) })
    (hdefN : newKey =
      { ID := newKeyID, TenantID := oldKey.TenantID, Name := oldKey.Name ++ str " (rotated)",
        KeyPfx := (GenerateAPIKey rnd).2, KeyHash := hash, Scopes := oldKey.Scopes,
        RateLimit := oldKey.RateLimit, ExpiresAt := none, LastUsedAt := none,
        CreatedAt := t0, RevokedAt := none, Rotated := false,
        RotatedFrom := some oldKeyID }) :
    RotateKey P st oldKeyID rnd salt newKeyID t0 =
      .ok (newKey, (GenerateAPIKey rnd).1,
        { st with keys := aset (aset st.keys oldKeyID oldKey') newKeyID newKey,
                  keyHash := aset st.keyHash hash newKeyID }) ∧
    newKey.TenantID = oldKey.TenantID ∧
    newKey.Scopes = oldKey.Scopes ∧
    alookup (aset (aset st.keys oldKeyID oldKey') newKeyID newKey) oldKeyID = some oldKey' ∧
    alookup (aset (aset st.keys oldKeyID oldKey') newKeyID newKey) newKeyID = some newKey ∧
    (∀ now, now ≤ t0 + 2 * st.cfg.KeyRotationWindow →
      authGateCheck tenant oldKey' now st.cfg = .success tenant.ID oldKey.ID oldKey.Scopes) ∧
    (∀ now, t0 + 2 * st.cfg.KeyRotationWindow < now →
      authGateCheck tenant oldKey' now st.cfg = .keyExpired) ∧
    (∀ now, authGateCheck tenant newKey now st.cfg =
      .success tenant.ID newKeyID oldKey.Scopes) := by
  have hrevB : oldKey.RevokedAt.isSome = false := by rw [hrev]; rfl
  refine ⟨?_, by rw [hdefN], by rw [hdefN], ?_, ?_, ?_, ?_, ?_⟩
  · unfold RotateKey
    rw [hold]
    simp only [hrevB, Bool.false_eq_true, if_false, hhash]
    rw [hdefO, hdefN]
  · rw [alookup_aset_ne _ _ _ _ (Ne.symm hne)]
    exact alookup_aset_self _ _ _
  · exact alookup_aset_self _ _ _
  · intro now hnow
    have h := (authGate_rotated_key tenant oldKey' now (t0 + st.cfg.KeyRotationWindow) st.cfg
      hact (by rw [hdefO]) (by rw [hdefO]) (by rw [hdefO]; simpa using hrev) (by omega)).1
      (by omega)
    rw [h, hdefO]
  · intro now hnow
    exact (authGate_rotated_key tenant oldKey' now (t0 + st.cfg.KeyRotationWindow) st.cfg
      hact (by rw [hdefO]) (by rw [hdefO]) (by rw [hdefO]; simpa using hrev) (by omega)).2
      (by omega)
  · intro now
    have h := authGate_success_no_expiry tenant newKey now st.cfg hact
      (by rw [hdefN]) (by rw [hdefN])
    rw [h, hdefN]

/-- Counterexample to claim C3 as stated: rotating `demoLiveKey` at t0 = 0
with grace window 24 leaves the old key expiring at 24, yet at now = 25
(grace + 1) the auth gate still ADMITS the old key instead of rejecting it
with 401. -/
theorem rotateKey_old_key_alive_after_grace :
    rotatedKeyOf (RotateKey modelPrims demoRotateStore (str "key1") [1, 2, 3] []
        (str "key2") 0) (str "key1") = some demoOldRotated ∧
    authGateCheck demoTenant demoOldRotated 25 demoRotateStore.cfg =
      .success (str "acme") (str "key1") [str "*"] := by
  exact ⟨by rfl, by decide⟩

/-- Witness for the amended C3 theorem on the concrete rotation of
`demoLiveKey` (grace 24, rotation at 0): both keys pass at 25 ≤ 48, the old
key is expired at 49. -/
theorem rotateKey_grace_and_cutoff_witness :
    authGateCheck demoTenant demoOldRotated 25 demoRotateStore.cfg =
      .success (str "acme") (str "key1") [str "*"] ∧
    authGateCheck demoTenant demoOldRotated 49 demoRotateStore.cfg = .keyExpired := by
  have h := rotateKey_grace_and_cutoff modelPrims demoRotateStore (str "key1") [1, 2, 3] []
    (str "key2") 0 demoLiveKey demoOldRotated
    { ID := str "key2", TenantID := demoLiveKey.TenantID,
      Name := demoLiveKey.Name ++ str " (rotated)",
      KeyPfx := (GenerateAPIKey [1, 2, 3]).2,
      KeyHash := modelPrims.bcryptHash 12 [] (strBytes (str "AQID")),
      Scopes := demoLiveKey.Scopes, RateLimit := demoLiveKey.RateLimit,
      ExpiresAt := none, LastUsedAt := none, CreatedAt := 0, RevokedAt := none,
      Rotated := false, RotatedFrom := some (str "key1") }
    demoTenant (modelPrims.bcryptHash 12 [] (strBytes (str "AQID")))
    (by rfl) (by rfl) (by rfl) (by decide) (by rfl) (by decide) (by rfl) (by rfl)
  obtain ⟨-, -, -, -, -, hin, hout, -⟩ := h
  exact ⟨by simpa using hin 25 (by decide), hout 49 (by decide)⟩

/-- Cloning a job is the identity on the value (Go copies every field). -/
theorem cloneJob_eq (j : AZJob) : cloneJob j = j := rfl

/-- Claim C5: the branch behaviour of `Enqueue` below the queue-depth gate.
When the tenant-scoped idempotency key is mapped, the existing job is
returned on a criteria match and an `idempotency-body-mismatch` conflict on a
mismatch; otherwise a non-terminal job under the tenant-scoped criteria key
yields a `duplicate-job` conflict; otherwise a fresh job is created in state
`queued` with progress 0, retryCount 0 and canCancel false, carrying the
supplied fresh UUID and indexed under both keys. -/
theorem enqueue_idempotency_dedup_create
    (st : QueueState) (cfg : QueueConfig) (tid idem ch : String) (req : AZRequest)
    (uuid : String) (now : Int)
    (hdepth : ¬(cfg.MaxQueueDepth > 0 ∧ (activeCount st : Int) ≥ cfg.MaxQueueDepth)) :
    (∀ s, (alookup st.byKey (tid ++ ":" ++ idem)).bind (alookup st.jobs) = some s →
      (s.criteriaHash = ch → s.tenantID = tid →
        Enqueue st cfg tid idem ch req uuid now = (.ok (cloneJob s.job), st)) ∧
      (¬(s.criteriaHash = ch ∧ s.tenantID = tid) →
        Enqueue st cfg tid idem ch req uuid now =
          (.conflict .idempotencyBodyMismatch s.job.JobId, st))) ∧
    ((alookup st.byKey (tid ++ ":" ++ idem)).bind (alookup st.jobs) = none →
      (∀ s2, (alookup st.byCriteria (tid ++ ":" ++ ch)).bind (alookup st.jobs) = some s2 →
        isTerminal s2.job.Status = false →
        Enqueue st cfg tid idem ch req uuid now = (.conflict .duplicateJob s2.job.JobId, st)) ∧
      (∀ s2, (alookup st.byCriteria (tid ++ ":" ++ ch)).bind (alookup st.jobs) = some s2 →
        isTerminal s2.job.Status = true →
        Enqueue st cfg tid idem ch req uuid now =
          (.ok (cloneJob (freshJob uuid ch now)), enqNewState st tid idem ch req uuid now)) ∧
      ((alookup st.byCriteria (tid ++ ":" ++ ch)).bind (alookup st.jobs) = none →
        Enqueue st cfg tid idem ch req uuid now =
          (.ok (cloneJob (freshJob uuid ch now)), enqNewState st tid idem ch req uuid now))) ∧
    ((freshJob uuid ch now).JobId = uuid ∧ (freshJob uuid ch now).Status = .queued ∧
      (freshJob uuid ch now).Progress = 0 ∧ (freshJob uuid ch now).RetryCount = 0 ∧
      (freshJob uuid ch now).CanCancel = some false ∧
      alookup (enqNewState st tid idem ch req uuid now).byKey (tid ++ ":" ++ idem) = some uuid ∧
      alookup (enqNewState st tid idem ch req uuid now).byCriteria (tid ++ ":" ++ ch) =
        some uuid ∧
      (alookup (enqNewState st tid idem ch req uuid now).jobs uuid).map (fun s => s.job) =
        some (freshJob uuid ch now)) := by
  unfold Enqueue
  rw [if_neg hdepth]
  refine ⟨?_, ?_, ?_⟩
  · intro s hbk
    constructor
    · intro hc ht
      simp only [hbk, hc, ht]
      simp
    · intro hne
      have hb : (s.criteriaHash == ch && s.tenantID == tid) = false := by
        rcases hb1 : s.criteriaHash == ch with _ | _
        · rfl
        · rcases hb2 : s.tenantID == tid with _ | _
          · rfl
          · exact absurd ⟨eq_of_beq hb1, eq_of_beq hb2⟩ hne
      simp only [hbk]
      simp [hb]
  · intro hbk
    refine ⟨?_, ?_, ?_⟩
    · intro s2 hbc hterm
      simp only [hbk, hbc]
      simp [hterm]
    · intro s2 hbc hterm
      simp only [hbk, hbc]
      simp [hterm, freshJob, enqNewState]
    · intro hbc
      simp only [hbk, hbc]
      simp [freshJob, enqNewState]
  · refine ⟨rfl, rfl, rfl, rfl, rfl, ?_, ?_, ?_⟩
    · exact alookup_aset_self _ _ _
    · exact alookup_aset_self _ _ _
    · rw [show (enqNewState st tid idem ch req uuid now).jobs = aset st.jobs uuid
        { job := freshJob uuid ch now, tenantID := tid, criteriaHash := ch,
          idempotencyKey := idem, request := req } from rfl]
      rw [alookup_aset_self]
      rfl

/-- Witness for C5 on the one-job queue `qQueue1`: idempotent replay,
body-mismatch conflict, duplicate-criteria conflict, and fresh creation. -/
theorem enqueue_idempotency_dedup_create_witness :
    Enqueue qQueue1 qcfg "acme" "idem-1" "crit-1" qreq "uuid-x" 5 =
      (.ok (cloneJob qStateQueued.job), qQueue1) ∧
    Enqueue qQueue1 qcfg "acme" "idem-1" "crit-2" qreq "uuid-x" 5 =
      (.conflict .idempotencyBodyMismatch "job-1", qQueue1) ∧
    Enqueue qQueue1 qcfg "acme" "idem-2" "crit-1" qreq "uuid-x" 5 =
      (.conflict .duplicateJob "job-1", qQueue1) ∧
    Enqueue qQueue1 qcfg "acme" "idem-2" "crit-9" qreq "uuid-x" 5 =
      (.ok (cloneJob (freshJob "uuid-x" "crit-9" 5)),
        enqNewState qQueue1 "acme" "idem-2" "crit-9" qreq "uuid-x" 5) := by
  have h1 := enqueue_idempotency_dedup_create qQueue1 qcfg "acme" "idem-1" "crit-1" qreq
    "uuid-x" 5 (by decide)
  have h2 := enqueue_idempotency_dedup_create qQueue1 qcfg "acme" "idem-1" "crit-2" qreq
    "uuid-x" 5 (by decide)
  have h3 := enqueue_idempotency_dedup_create qQueue1 qcfg "acme" "idem-2" "crit-1" qreq
    "uuid-x" 5 (by decide)
  have h4 := enqueue_idempotency_dedup_create qQueue1 qcfg "acme" "idem-2" "crit-9" qreq
    "uuid-x" 5 (by decide)
  refine ⟨(h1.1 qStateQueued (by rfl)).1 rfl rfl,
    ?_,
    (h3.2.1 (by rfl)).1 qStateQueued (by rfl) (by decide),
    (h4.2.1 (by rfl)).2.2 (by rfl)⟩
  have := (h2.1 qStateQueued (by rfl)).2 (by decide)
  simpa using this

/-- Claim C9: when the tenant-scoped idempotency key is mapped to a job with
the same criteria hash, `Enqueue` returns that job unchanged even when it is
terminal (the non-terminal restriction applies only to the criteria-level
duplicate check), and the queue state is untouched — a replay after
completion receives the finished job and never starts a new export. -/
theorem enqueue_replay_returns_terminal_job
    (st : QueueState) (cfg : QueueConfig) (tid idem ch : String) (req : AZRequest)
    (uuid : String) (now : Int) (s : JobStateR)
    (hdepth : ¬(cfg.MaxQueueDepth > 0 ∧ (activeCount st : Int) ≥ cfg.MaxQueueDepth))
    (hbk : (alookup st.byKey (tid ++ ":" ++ idem)).bind (alookup st.jobs) = some s)
    (hcrit : s.criteriaHash = ch) (hten : s.tenantID = tid)
    (_hterm : isTerminal s.job.Status = true) :
    Enqueue st cfg tid idem ch req uuid now = (.ok s.job, st) := by
  unfold Enqueue
  rw [if_neg hdepth]
  simp only [hbk]
  simp [hcrit, hten, cloneJob_eq]

/-- Witness for C9: replaying `idem-1`/`crit-1` on the queue holding only the
succeeded job returns that finished job and leaves the queue unchanged. -/
theorem enqueue_replay_returns_terminal_job_witness :
    Enqueue qQueueDone qcfg "acme" "idem-1" "crit-1" qreq "uuid-y" 7 =
      (.ok qJobDone, qQueueDone) := by
  exact enqueue_replay_returns_terminal_job qQueueDone qcfg "acme" "idem-1" "crit-1" qreq
    "uuid-y" 7 qStateDone (by decide) (by rfl) (by rfl) (by rfl) (by decide)

/-- Counterexample to claim C6 as stated: on a queue whose only job is the
terminal (canceled) `qJobCanceled`, the worker-side updates `completeJob`,
`failJob` and `setRetryCount` all change the job's state (to succeeded,
failed and running respectively) — `updateStatus` overwrites the status
unconditionally. -/
theorem completeJob_overwrites_canceled :
    isTerminal qJobCanceled.Status = true ∧
    jobStatusOf (completeJob qQueueCanceled "job-1" 99 "https://signed/u2" 700 10) "job-1" =
      some .succeeded ∧
    jobStatusOf (failJob qQueueCanceled "job-1" 99 "boom") "job-1" = some .failed ∧
    jobStatusOf (setRetryCount qQueueCanceled "job-1" 1) "job-1" = some .running := by
  refine ⟨by decide, by rfl, by rfl, by rfl⟩

/-- Claim C6, amended: `Cancel` and `Enqueue` never modify a job that is
already terminal, and a progress bump on a canceled job aborts with the
cancellation signal; but the worker-side `completeJob`, `failJob` and
`setRetryCount` updates overwrite the stored status unconditionally, so a
worker completing, failing or retrying concurrently with a cancellation can
move a terminal (canceled) job to succeeded, failed or running.  Only
retention GC removes artifacts (the queue has no other removal operation). -/
theorem terminal_job_operations
    (st : QueueState) (tid jid : String) (now : Int) (s : JobStateR)
    (hjob : alookup st.jobs jid = some s)
    (hterm : isTerminal s.job.Status = true) :
    ((Cancel st tid jid now).2 = st ∧
      ((Cancel st tid jid now).1 = .notFound ∨
        (Cancel st tid jid now).1 = .notCancelable s.job)) ∧
    (∀ p, s.job.Status = .canceled → bumpProgress st jid p = .error .canceled) ∧
    (∀ cfg tid2 idem ch req uuid now2, uuid ≠ jid →
      alookup ((Enqueue st cfg tid2 idem ch req uuid now2).2).jobs jid = some s) ∧
    (∀ tnow url exp size, jobStatusOf (completeJob st jid tnow url exp size) jid =
      some .succeeded) ∧
    (∀ tnow msg, jobStatusOf (failJob st jid tnow msg) jid = some .failed) ∧
    (∀ r, jobStatusOf (setRetryCount st jid r) jid = some .running) := by
  have hnr : (s.job.Status != .running) = true := by
    rcases hs : s.job.Status <;> simp_all [isTerminal]
  refine ⟨?_, ?_, ?_, ?_, ?_, ?_⟩
  · unfold Cancel
    rw [hjob]
    by_cases ht : (s.tenantID != tid) = true
    · simp [ht]
    · simp [ht, hnr, cloneJob_eq]
  · intro p hcanc
    unfold bumpProgress
    rw [hjob]
    simp [hcanc]
  · intro cfg tid2 idem ch req uuid now2 hne
    unfold Enqueue
    split
    · simpa using hjob
    · rcases hbk : (alookup st.byKey (tid2 ++ ":" ++ idem)).bind (alookup st.jobs) with _ | s1
      · rcases hbc : (alookup st.byCriteria (tid2 ++ ":" ++ ch)).bind (alookup st.jobs)
          with _ | s2
        · simp only [hbk, hbc]
          simpa [alookup_aset_ne _ _ jid _ (Ne.symm hne)] using hjob
        · simp only [hbk, hbc]
          by_cases hterm2 : isTerminal s2.job.Status
          · simp only [hterm2]
            simpa [alookup_aset_ne _ _ jid _ (Ne.symm hne)] using hjob
          · simp only [Bool.not_eq_true] at hterm2
            simpa [hterm2] using hjob
      · simp only [hbk]
        by_cases hmatch : (s1.criteriaHash == ch && s1.tenantID == tid2) = true
        · simpa [hmatch] using hjob
        · simp only [Bool.not_eq_true] at hmatch
          simpa [hmatch] using hjob
  · intro tnow url exp size
    unfold completeJob updateStatus updateJob
    rw [hjob]
    simp [jobStatusOf, alookup_aset_self]
  · intro tnow msg
    unfold failJob updateStatus updateJob
    rw [hjob]
    simp [jobStatusOf, alookup_aset_self]
  · intro r
    unfold setRetryCount updateStatus updateJob
    rw [hjob]
    simp [jobStatusOf, alookup_aset_self]

/-- Witness for the amended C6 theorem on the canceled-job queue. -/
theorem terminal_job_operations_witness :
    (Cancel qQueueCanceled "acme" "job-1" 77).2 = qQueueCanceled ∧
    bumpProgress qQueueCanceled "job-1" 50 = .error .canceled ∧
    alookup ((Enqueue qQueueCanceled qcfg "beta" "idem-9" "crit-9" qreq "uuid-z" 9).2).jobs
      "job-1" = some qStateCanceled ∧
    jobStatusOf (failJob qQueueCanceled "job-1" 99 "boom") "job-1" = some .failed := by
  have h := terminal_job_operations qQueueCanceled "acme" "job-1" 77 qStateCanceled
    (by rfl) (by decide)
  exact ⟨h.1.1, h.2.1 50 (by decide), h.2.2.1 qcfg "beta" "idem-9" "crit-9" qreq "uuid-z" 9
    (by decide), h.2.2.2.2.1 99 "boom"⟩

/-- Re-inserting under the same key replaces the earlier insertion. -/
theorem aset_aset [BEq κ] [LawfulBEq κ] (l : List (κ × α)) (k : κ) (v v' : α) :
    aset (aset l k v) k v' = aset l k v' := by
  induction l with
  | nil => simp [aset]
  | cons p rest ih =>
    obtain ⟨a, b⟩ := p
    by_cases h : a == k
    · simp [aset, h]
    · simp [aset, h, ih]

/-- Behaviour of the retry loop when every attempt fails transiently: from
attempt `a` (with enough fuel), the loop performs attempts `a … MaxRetries`,
waits `RetryBaseDelay · 2^(k-1)` before each retry, observes the job running
with retryCount `k - 1` on each attempt `k`, and finally stores the failed
job. -/
theorem runAttempts_transient
    (cfg : QueueConfig) (oracle : Nat → AttemptOutcome) (jid : String)
    (tf : Nat → Int) (mf : Nat → String)
    (hor : ∀ k, oracle k = .transient (tf k) (mf k)) :
    ∀ fuel a st s, 1 ≤ a → a ≤ cfg.MaxRetries → cfg.MaxRetries ≤ a + fuel →
      alookup st.jobs jid = some s →
      runAttempts cfg oracle jid fuel a st =
        ({ st with jobs := aset st.jobs jid
                     { s with job := failedJobVal cfg.MaxRetries (tf cfg.MaxRetries)
                                       (mf cfg.MaxRetries) s.job } },
         (List.range' a (cfg.MaxRetries - a)).map (fun k => cfg.RetryBaseDelay * 2 ^ (k - 1)),
         (List.range' a (cfg.MaxRetries - a + 1)).map (fun k => (JStatus.running, k - 1))) := by
  intro fuel
  induction fuel with
  | zero =>
    intro a st s h1 h2 h3 hjob
    have ha : a = cfg.MaxRetries := by omega
    subst ha
    unfold runAttempts
    rw [hor cfg.MaxRetries]
    simp only [setRetryCount, updateStatus, updateJob, hjob, ge_iff_le, le_refl, if_true,
      alookup_aset_self, failJob, aset_aset, Nat.sub_self, List.range']
    simp [failedJobVal, attemptObs, alookup_aset_self]
  | succ fuel ih =>
    intro a st s h1 h2 h3 hjob
    by_cases hend : cfg.MaxRetries ≤ a
    · have ha : a = cfg.MaxRetries := by omega
      subst ha
      unfold runAttempts
      rw [hor cfg.MaxRetries]
      simp only [setRetryCount, updateStatus, updateJob, hjob, ge_iff_le, le_refl, if_true,
        alookup_aset_self, failJob, aset_aset, Nat.sub_self, List.range']
      simp [failedJobVal, attemptObs, alookup_aset_self]
    · have hlt : a < cfg.MaxRetries := by omega
      unfold runAttempts
      rw [hor a]
      simp only [setRetryCount, updateStatus, updateJob, hjob, alookup_aset_self]
      rw [if_neg (by omega)]
      have hrec := ih (a + 1)
        { st with jobs := aset st.jobs jid
                    { s with job := { s.job with Status := .running, RetryCount := a - 1 } } }
        { s with job := { s.job with Status := .running, RetryCount := a - 1 } }
        (by omega) (by omega) (by omega) (by simpa using alookup_aset_self st.jobs jid _)
      rw [hrec]
      set n := cfg.MaxRetries - (a + 1) with hn
      have hsub1 : cfg.MaxRetries - a = n + 1 := by omega
      rw [hsub1]
      have e1 : List.range' a (n + 1) = a :: List.range' (a + 1) n := List.range'_succ _ _ _
      have e2 : List.range' a (n + 1 + 1) = a :: List.range' (a + 1) (n + 1) :=
        List.range'_succ _ _ _
      rw [e2, e1]
      simp [failedJobVal, attemptObs, alookup_aset_self, aset_aset]

/-- Claim C7: with every attempt failing transiently, the worker makes
exactly `MaxRetries` attempts (so at most MAX_RETRIES retries), waits
`RETRY_BASE_DELAY · 2^(attempt-1)` before each retry, sets `retryCount` on
each attempt while the job is observed in state `running`, and finally
stores the job as `failed` with `finishedAt` set and the error
`{code INTERNAL_ERROR, retryable true}` attached. -/
theorem runJob_exhausts_retries_then_fails
    (cfg : QueueConfig) (oracle : Nat → AttemptOutcome) (jid : String)
    (tf : Nat → Int) (mf : Nat → String) (tStart : Int) (st : QueueState) (s : JobStateR)
    (hor : ∀ k, oracle k = .transient (tf k) (mf k))
    (hjob : alookup st.jobs jid = some s)
    (hMR : 1 ≤ cfg.MaxRetries) :
    runJob cfg oracle jid tStart st =
      ({ st with jobs := aset st.jobs jid
                   { s with job := failedJobVal cfg.MaxRetries (tf cfg.MaxRetries)
                                     (mf cfg.MaxRetries)
                                     { s.job with
                                       Status := .running, StartedAt := some tStart,
                                       CanCancel := some true, Progress := 5 } } },
       (List.range' 1 (cfg.MaxRetries - 1)).map (fun k => cfg.RetryBaseDelay * 2 ^ (k - 1)),
       (List.range' 1 cfg.MaxRetries).map (fun k => (JStatus.running, k - 1))) ∧
    ((List.range' 1 (cfg.MaxRetries - 1)).map
        (fun k => cfg.RetryBaseDelay * 2 ^ (k - 1))).length = cfg.MaxRetries - 1 ∧
    (failedJobVal cfg.MaxRetries (tf cfg.MaxRetries) (mf cfg.MaxRetries)
        { s.job with
          Status := .running, StartedAt := some tStart,
          CanCancel := some true, Progress := 5 }).Status = .failed ∧
    (failedJobVal cfg.MaxRetries (tf cfg.MaxRetries) (mf cfg.MaxRetries)
        { s.job with
          Status := .running, StartedAt := some tStart,
          CanCancel := some true, Progress := 5 }).Error =
      some { Code := "INTERNAL_ERROR", Message := mf cfg.MaxRetries, Retryable := true,
             CorrId := "" } := by
  refine ⟨?_, by simp, rfl, rfl⟩
  simp only [runJob]
  have hjob1 : alookup (updateStatus st jid .running (fun j =>
      { j with StartedAt := some tStart, CanCancel := some true, Progress := 5 })).jobs jid =
      some { s with
             job := { s.job with
                      Status := .running, StartedAt := some tStart,
                      CanCancel := some true, Progress := 5 } } := by
    simp [updateStatus, updateJob, hjob, alookup_aset_self]
  have h := runAttempts_transient cfg oracle jid tf mf hor cfg.MaxRetries 1
    (updateStatus st jid .running (fun j =>
      { j with StartedAt := some tStart, CanCancel := some true, Progress := 5 }))
    { s with
      job := { s.job with
               Status := .running, StartedAt := some tStart,
               CanCancel := some true, Progress := 5 } }
    (by omega) hMR (by omega) hjob1
  rw [h]
  simp [updateStatus, updateJob, hjob, aset_aset]
  rw [Nat.sub_add_cancel hMR]

/-- Witness for C7: running the queued job with the all-transient oracle and
MaxRetries = 3 produces backoffs `[base, 2·base]`, observations
`(running,0) (running,1) (running,2)`, and a failed job with the
internal-error attached. -/
theorem runJob_exhausts_retries_then_fails_witness :
    (runJob qcfg oracleFail "job-1" 10 qQueue1).2.1 = [2000000000, 4000000000] ∧
    (runJob qcfg oracleFail "job-1" 10 qQueue1).2.2 =
      [(JStatus.running, 0), (JStatus.running, 1), (JStatus.running, 2)] ∧
    jobStatusOf (runJob qcfg oracleFail "job-1" 10 qQueue1).1 "job-1" = some .failed ∧
    (alookup (runJob qcfg oracleFail "job-1" 10 qQueue1).1.jobs "job-1").map
        (fun s => s.job.Error) =
      some (some { Code := "INTERNAL_ERROR", Message := "transient io", Retryable := true,
                   CorrId := "" }) := by
  have h := runJob_exhausts_retries_then_fails qcfg oracleFail "job-1" tfFail mfFail 10
    qQueue1 qStateQueued (fun k => rfl) (by rfl) (by decide)
  rw [h.1]
  refine ⟨by decide, by decide, by rfl, by rfl⟩

/-- Counterexample to claim C8 as stated: the auditzip rate limiter
(validator.go) is a fixed-window counter, and a denied call returns the time
remaining until the window resets, not `window / rate`.  With limit 2,
window 60, a full window started at 0 and a call at 10, it denies with
retry-after 50, while `window / rate` is 30. -/
theorem zipAllow_retry_after_not_window_div_rate :
    (zipAllow 2 60 [("acme", { count := 2, windowStart := 0 })] "acme" 10).1 = (false, 50) ∧
    Int.tdiv 60 2 = 30 ∧ (50 : Int) ≠ 30 := by
  refine ⟨by rfl, by decide, by decide⟩

/-- Claim C8, amended: the auth package limiter has the claimed shape — every
`Allow` returns `(true, 0)` on admission and `(false, window / rate)` on
denial, admitting a fresh key outright (capacity `rate`, one token consumed)
and otherwise admitting exactly when the refill-clamped token count is
positive; the auditzip limiter instead runs a fixed window per tenant, always
admits when its limit is 0, resets the window after `window` has elapsed, and
on denial returns the remaining window time `windowStart + window − now`. -/
theorem rateLimiter_allow_results
    (rate window : Int) (buckets : List (String × TokenBucket)) (key : String)
    (now refill : Int) (limit zwindow : Int) (zstates : List (String × TenantRate))
    (tenant : String) (znow : Int)
    (_hrate : 1 ≤ rate) (hlimit : 1 ≤ limit) :
    ((authAllow rate window buckets key now refill).1 = (true, 0) ∨
      (authAllow rate window buckets key now refill).1 = (false, Int.tdiv window rate)) ∧
    (alookup buckets key = none → (authAllow rate window buckets key now refill).1 = (true, 0)) ∧
    (∀ b, alookup buckets key = some b →
      ((authAllow rate window buckets key now refill).1.1 = true ↔
        0 < (if 0 < refill then min rate (b.tokens + refill) else b.tokens))) ∧
    (zipAllow 0 zwindow zstates tenant znow).1 = (true, 0) ∧
    (alookup zstates tenant = none → (zipAllow limit zwindow zstates tenant znow).1 = (true, 0)) ∧
    (∀ s0, alookup zstates tenant = some s0 → znow - s0.windowStart < zwindow →
      (limit ≤ s0.count →
        (zipAllow limit zwindow zstates tenant znow).1 =
          (false, s0.windowStart + zwindow - znow)) ∧
      (s0.count < limit → (zipAllow limit zwindow zstates tenant znow).1 = (true, 0))) ∧
    (∀ s0, alookup zstates tenant = some s0 → zwindow ≤ znow - s0.windowStart →
      (zipAllow limit zwindow zstates tenant znow).1 = (true, 0)) := by
  refine ⟨?_, ?_, ?_, ?_, ?_, ?_, ?_⟩
  · unfold authAllow
    cases hb : alookup buckets key with
    | none => simp
    | some b =>
      by_cases ht : (if refill > 0 then
          { tokens := min rate (b.tokens + refill), lastFill := now : TokenBucket }
        else b).tokens > 0
      · simp [ht]
      · simp [ht]
  · intro hb
    unfold authAllow
    rw [hb]
  · intro b hb
    unfold authAllow
    rw [hb]
    by_cases hr : refill > 0
    · by_cases ht : 0 < min rate (b.tokens + refill)
      · simp [hr, ht]
      · simp only [hr, if_true]
        rw [if_neg (by simpa using ht)]
        simp [ht]
    · by_cases ht : 0 < b.tokens
      · simp [hr, ht]
      · simp only [hr, if_false]
        rw [if_neg (by simpa using ht)]
        simp [ht]
  · unfold zipAllow
    simp
  · intro hz
    unfold zipAllow
    have h0 : (limit == 0) = false := by
      rw [beq_eq_false_iff_ne]
      omega
    rw [hz]
    simp only [h0, Bool.false_eq_true, if_false]
    by_cases hw : znow - znow ≥ zwindow
    · rw [if_pos hw]
      have hc : ¬(({ count := 0, windowStart := znow } : TenantRate).count ≥ limit) := by
        simp only
        omega
      rw [if_neg hc]
    · rw [if_neg hw]
      have hc : ¬(({ count := 0, windowStart := znow } : TenantRate).count ≥ limit) := by
        simp only
        omega
      rw [if_neg hc]
  · intro s0 hz hwin
    unfold zipAllow
    have h0 : (limit == 0) = false := by
      rw [beq_eq_false_iff_ne]
      omega
    rw [hz]
    simp only [h0, Bool.false_eq_true, if_false]
    have hw : ¬(znow - s0.windowStart ≥ zwindow) := by omega
    rw [if_neg hw]
    constructor
    · intro hcnt
      rw [if_pos (show s0.count ≥ limit by omega)]
    · intro hcnt
      rw [if_neg (show ¬(s0.count ≥ limit) by omega)]
  · intro s0 hz hwin
    unfold zipAllow
    have h0 : (limit == 0) = false := by
      rw [beq_eq_false_iff_ne]
      omega
    rw [hz]
    simp only [h0, Bool.false_eq_true, if_false]
    rw [if_pos (show znow - s0.windowStart ≥ zwindow by omega)]
    have hc : ¬(({ count := 0, windowStart := znow } : TenantRate).count ≥ limit) := by
      simp only
      omega
    rw [if_neg hc]

/-- Witness for the amended C8 theorem: a fresh auth bucket admits with
`(true, 0)`, an empty auth bucket denies with `(false, 60/3)`, and the
auditzip limiter at the counterexample input denies with the remaining
window. -/
theorem rateLimiter_allow_results_witness :
    (authAllow 3 60 [] "k" 0 0).1 = (true, 0) ∧
    (authAllow 3 60 [("k", { tokens := 0, lastFill := 0 })] "k" 5 0).1 =
      (false, Int.tdiv 60 3) ∧
    (zipAllow 2 60 [("acme", { count := 2, windowStart := 0 })] "acme" 10).1 =
      (false, 0 + 60 - 10) := by
  have h1 := rateLimiter_allow_results 3 60 [] "k" 0 0 2 60
    [("acme", { count := 2, windowStart := 0 })] "acme" 10 (by decide) (by decide)
  have h2 := rateLimiter_allow_results 3 60 [("k", { tokens := 0, lastFill := 0 })] "k" 5 0
    2 60 [("acme", { count := 2, windowStart := 0 })] "acme" 10 (by decide) (by decide)
  refine ⟨h1.2.1 (by rfl), ?_, ?_⟩
  · rcases h2.1 with h | h
    · have := (h2.2.2.1 { tokens := 0, lastFill := 0 } (by rfl)).mp (by rw [h])
      simp at this
    · exact h
  · exact (h2.2.2.2.2.2.1 { count := 2, windowStart := 0 } (by rfl) (by decide)).1 (by decide)

/-- Appending a correctly linked and correctly hashed entry extends an auth
audit chain. -/
theorem chainFrom_append (l : List AuditLogEntry) (e : AuditLogEntry) (p : Str)
    (h : chainFrom p l) (he1 : e.PrevHash = lastHash p l)
    (he2 : e.Hash = ComputeAuditHash e.PrevHash (authAuditPayload e)) :
    chainFrom p (l ++ [e]) := by
  induction l generalizing p with
  | nil =>
    simp only [List.nil_append, chainFrom]
    exact ⟨by simpa [lastHash] using he1, he2, trivial⟩
  | cons x rest ih =>
    obtain ⟨h1, h2, h3⟩ := h
    refine ⟨h1, h2, ih x.Hash h3 ?_⟩
    rw [he1]
    cases rest with
    | nil => simp [lastHash]
    | cons y t =>
      rcases hgl : (y :: t).getLast? with _ | z
      · simp [List.getLast?_eq_none_iff] at hgl
      · simp [lastHash, hgl]

/-- Appending a correctly linked and correctly hashed entry extends an
auditzip chain. -/
theorem azChainFrom_append (l : List AZAuditLog) (e : AZAuditLog) (p : Str)
    (h : azChainFrom p l) (he1 : e.PrevHash = azLastHash p l)
    (he2 : e.Hash = hashAudit e) :
    azChainFrom p (l ++ [e]) := by
  induction l generalizing p with
  | nil =>
    simp only [List.nil_append, azChainFrom]
    exact ⟨by simpa [azLastHash] using he1, he2, trivial⟩
  | cons x rest ih =>
    obtain ⟨h1, h2, h3⟩ := h
    refine ⟨h1, h2, ih x.Hash h3 ?_⟩
    rw [he1]
    cases rest with
    | nil => simp [azLastHash]
    | cons y t =>
      rcases hgl : (y :: t).getLast? with _ | z
      · simp [List.getLast?_eq_none_iff] at hgl
      · simp [azLastHash, hgl]

/-- `recordAuthSuccess` preserves the per-tenant chain invariant (stated for
tenants with a non-empty id, though the success path links correctly for any
tenant). -/
theorem recInv_success (rec : RecorderState) (tid : Str) (inp : AuthAuditInput)
    (hinv : ∀ t, t ≠ [] → chainFrom [] ((alookup rec t).getD [])) :
    ∀ t, t ≠ [] → chainFrom [] ((alookup (recordAuthSuccess rec tid inp) t).getD []) := by
  intro t ht
  by_cases hteq : t = tid
  · subst hteq
    simp only [recordAuthSuccess, recAppendEntry]
    rw [alookup_aset_self]
    simp only [Option.getD_some]
    refine chainFrom_append _ _ _ (hinv t ht) ?_ ?_
    · simp only [lastHash, recLast]
    · rfl
  · simp only [recordAuthSuccess, recAppendEntry]
    rw [alookup_aset_ne _ _ _ _ hteq]
    exact hinv t ht
/-- `recordAuthFailure` preserves the per-tenant chain invariant for every
tenant with a non-empty id (the empty chain tenant is excluded: failures
recorded there never link to a predecessor). -/
theorem recInv_failure (rec : RecorderState) (tid action : Str) (inp : AuthAuditInput)
    (hinv : ∀ t, t ≠ [] → chainFrom [] ((alookup rec t).getD [])) :
    ∀ t, t ≠ [] → chainFrom [] ((alookup (recordAuthFailure rec tid action inp) t).getD []) := by
  intro t ht
  by_cases hteq : t = tid
  · subst hteq
    simp only [recordAuthFailure, recAppendEntry]
    rw [alookup_aset_self]
    simp only [Option.getD_some]
    refine chainFrom_append _ _ _ (hinv t ht) ?_ ?_
    · simp only [lastHash, recLast, if_neg ht]
    · rfl
  · simp only [recordAuthFailure, recAppendEntry]
    rw [alookup_aset_ne _ _ _ _ hteq]
    exact hinv t ht

/-- `HashChain` preserves the chain invariant when the entry belongs to the
tenant whose chain is extended (as `appendAudit` guarantees). -/
theorem azInv_hashChain (rec : AZRecState) (tid : Str) (e : AZAuditLog)
    (hten : e.TenantID = tid)
    (hinv : ∀ t, azChainFrom [] ((alookup rec t).getD [])) :
    ∀ t, azChainFrom [] ((alookup (HashChain rec tid e).2 t).getD []) := by
  intro t
  by_cases hteq : t = tid
  · subst hteq
    simp only [HashChain, azAppend, hten]
    rw [alookup_aset_self]
    simp only [Option.getD_some]
    refine azChainFrom_append _ _ _ (hinv t) ?_ ?_
    · simp only [azLastHash, azLast]
    · rfl
  · simp only [HashChain, azAppend, hten]
    rw [alookup_aset_ne _ _ _ _ hteq]
    exact hinv t

/-- The auth-chain invariant holds along any trace of middleware appends. -/
theorem authOps_inv (ops : List AuthAuditOp) :
    ∀ rec, (∀ t, t ≠ [] → chainFrom [] ((alookup rec t).getD [])) →
      ∀ t, t ≠ [] → chainFrom [] ((alookup (applyAuthAuditOps rec ops) t).getD []) := by
  induction ops with
  | nil => intro rec h; exact h
  | cons op rest ih =>
    intro rec h
    cases op with
    | success tid inp =>
      exact ih (recordAuthSuccess rec tid inp) (recInv_success rec tid inp h)
    | failure tid action inp =>
      exact ih (recordAuthFailure rec tid action inp) (recInv_failure rec tid action inp h)

/-- The auditzip chain invariant holds along any trace of `HashChain`
appends whose entries carry the tenant they are appended for. -/
theorem azOps_inv (ops : List (Str × AZAuditLog)) :
    ∀ rec, (∀ p ∈ ops, p.2.TenantID = p.1) →
      (∀ t, azChainFrom [] ((alookup rec t).getD [])) →
      ∀ t, azChainFrom [] ((alookup (applyHashChains rec ops) t).getD []) := by
  induction ops with
  | nil => intro rec _ h; exact h
  | cons op rest ih =>
    obtain ⟨tid, e⟩ := op
    intro rec hwf h
    exact ih _ (fun p hp => hwf p (List.mem_cons_of_mem _ hp))
      (azInv_hashChain rec tid e (hwf (tid, e) (List.mem_cons_self _ _)) h)

/-- Claim C2, amended: entries appended by the auth middleware form, for
every tenant with a non-empty id, a hash chain with the claimed shape —
first `prevHash` empty, each later `prevHash` the previous entry's hash, and
`hash = SHA-256(prevHash ∥ entryId|tenantId|action|timestamp|prevHash)`.
Entries appended through the auditzip `HashChain` also link through
`prevHash` per tenant, but their hash is `hashAudit` —
`SHA-256(corrId|tenantId|actor|action|timestampNano|prevHash)` with no
prepended previous hash; and failure entries recorded under the empty chain
tenant never link (see the counterexample). -/
theorem audit_chains_link_per_tenant (ops : List AuthAuditOp)
    (ops2 : List (Str × AZAuditLog)) (hwf : ∀ p ∈ ops2, p.2.TenantID = p.1) :
    (∀ tid, tid ≠ [] → chainFrom [] ((alookup (applyAuthAuditOps [] ops) tid).getD [])) ∧
    (∀ tid, azChainFrom [] ((alookup (applyHashChains [] ops2) tid).getD [])) := by
  constructor
  · exact authOps_inv ops [] (fun t _ => trivial)
  · exact azOps_inv ops2 [] hwf (fun t => trivial)

/-- Counterexample to claim C2 as stated: (1) two `auth.missing_key`
failures recorded with unknown tenant (chain tenant `""`) leave the second
entry's `prevHash` empty while the first entry's hash is not — the chain
linkage fails for the empty chain tenant; (2) an entry appended through the
auditzip `HashChain` does not satisfy the claimed formula
`SHA-256(prevHash ∥ entryId|tenantId|action|timestamp|prevHash)`. -/
theorem audit_chain_broken_for_empty_tenant :
    ((alookup emptyTenantRec []).getD []).length = 2 ∧
    (((alookup emptyTenantRec []).getD []).getD 1 noEntry).PrevHash = [] ∧
    (((alookup emptyTenantRec []).getD []).getD 0 noEntry).Hash ≠ [] ∧
    (HashChain [] (str "acme") azEntry1).1.Hash ≠
      ComputeAuditHash (HashChain [] (str "acme") azEntry1).1.PrevHash
        (azClaimPayload (HashChain [] (str "acme") azEntry1).1) := by
  refine ⟨by rfl, by rfl, by decide, by decide⟩

/-- Witness for the amended C2 theorem on concrete traces: the two-entry
middleware trace for tenant `acme` chains, and so does the two-entry
auditzip trace. -/
theorem audit_chains_link_per_tenant_witness :
    chainFrom [] ((alookup (applyAuthAuditOps [] demoAuthOps) (str "acme")).getD []) ∧
    azChainFrom [] ((alookup (applyHashChains [] demoAZOps) (str "acme")).getD []) := by
  have h := audit_chains_link_per_tenant demoAuthOps demoAZOps (by decide)
  exact ⟨h.1 (str "acme") (by decide), h.2 (str "acme")⟩

/-!  Round-trip facts for the decimal rendering/parsing used by the argon2
hash format. -/

theorem digitVal_digitChar (n : Nat) (h : n < 10) : digitVal (digitChar n) = n := by
  interval_cases n <;> decide

theorem isDigit_digitChar (n : Nat) (h : n < 10) : (digitChar n).isDigit = true := by
  interval_cases n <;> decide

theorem natDigitsAux_digits (fuel : Nat) :
    ∀ n, n < fuel → ∀ c ∈ natDigitsAux fuel n, c.isDigit = true := by
  induction fuel with
  | zero => intro n h; omega
  | succ fuel ih =>
    intro n h c hc
    by_cases h10 : n < 10
    · simp [natDigitsAux, h10] at hc
      subst hc
      exact isDigit_digitChar n h10
    · simp only [natDigitsAux, h10, if_false, List.mem_append, List.mem_singleton] at hc
      rcases hc with hc | hc
      · exact ih (n / 10) (by omega) c hc
      · subst hc
        exact isDigit_digitChar (n % 10) (by omega)

theorem natDigits_digits (n : Nat) : ∀ c ∈ natDigits n, c.isDigit = true :=
  natDigitsAux_digits (n + 1) n (by omega)

theorem natDigitsAux_ne_nil (fuel n : Nat) (h : n < fuel) : natDigitsAux fuel n ≠ [] := by
  cases fuel with
  | zero => omega
  | succ fuel =>
    by_cases h10 : n < 10 <;> simp [natDigitsAux, h10]

theorem natDigits_ne_nil (n : Nat) : natDigits n ≠ [] :=
  natDigitsAux_ne_nil (n + 1) n (by omega)

theorem natDigitsAux_foldl (fuel : Nat) :
    ∀ n acc, n < fuel →
      (natDigitsAux fuel n).foldl (fun a c => a * 10 + digitVal c) acc =
        acc * 10 ^ (natDigitsAux fuel n).length + n := by
  induction fuel with
  | zero => intro n acc h; omega
  | succ fuel ih =>
    intro n acc h
    by_cases h10 : n < 10
    · simp [natDigitsAux, h10, digitVal_digitChar n h10]
    · have hdiv : n / 10 < fuel := by omega
      simp only [natDigitsAux, h10, if_false, List.foldl_append, List.foldl_cons,
        List.foldl_nil, List.length_append, List.length_singleton]
      rw [ih (n / 10) acc hdiv]
      rw [digitVal_digitChar (n % 10) (by omega)]
      rw [pow_succ]
      have := Nat.div_add_mod n 10
      set L := 10 ^ (natDigitsAux fuel (n / 10)).length
      ring_nf
      omega

theorem natFromDigits_natDigits (n : Nat) : natFromDigits (natDigits n) = n := by
  have h := natDigitsAux_foldl (n + 1) n 0 (by omega)
  simpa [natFromDigits, natDigits] using h

theorem takeDigits_append (ds rest : Str)
    (hds : ∀ c ∈ ds, c.isDigit = true)
    (hrest : rest = [] ∨ ∃ c cs, rest = c :: cs ∧ c.isDigit = false) :
    takeDigits (ds ++ rest) = (ds, rest) := by
  induction ds with
  | nil =>
    rcases hrest with h | ⟨c, cs, hcc, hc⟩
    · subst h; rfl
    · subst hcc
      simp [takeDigits, hc]
  | cons d ds ih =>
    have hd : d.isDigit = true := hds d (by simp)
    simp only [List.cons_append, takeDigits, hd, if_true, List.append_eq]
    rw [ih (fun c hc => hds c (by simp [hc]))]

theorem parseParams_round (M T P : Nat) :
    parseParams (str "m=" ++ natDigits M ++ str ",t=" ++ natDigits T ++ str ",p=" ++
      natDigits P) = some (M, T, P) := by
  have e1 : str "m=" ++ natDigits M ++ str ",t=" ++ natDigits T ++ str ",p=" ++ natDigits P =
      'm' :: '=' :: (natDigits M ++
        (',' :: 't' :: '=' :: (natDigits T ++ (',' :: 'p' :: '=' :: natDigits P)))) := by
    simp [str, List.append_assoc]
  rw [e1]
  have h1 := takeDigits_append (natDigits M)
    (',' :: 't' :: '=' :: (natDigits T ++ (',' :: 'p' :: '=' :: natDigits P)))
    (natDigits_digits M) (Or.inr ⟨',', _, rfl, by decide⟩)
  have h2 := takeDigits_append (natDigits T) (',' :: 'p' :: '=' :: natDigits P)
    (natDigits_digits T) (Or.inr ⟨',', _, rfl, by decide⟩)
  have h3 := takeDigits_append (natDigits P) [] (natDigits_digits P) (Or.inl rfl)
  simp only [parseParams, h1, h2]
  simp only [List.append_nil] at h3
  simp [h3, natDigits_ne_nil, natFromDigits_natDigits]

/-!  Facts about `splitOnChar` on strings assembled from separator-free
segments. -/

theorem splitOnChar_ne_nil (sep : Char) (l : Str) : splitOnChar sep l ≠ [] := by
  cases l with
  | nil => simp [splitOnChar]
  | cons c rest =>
    by_cases h : c = sep
    · simp [splitOnChar, h]
    · simp only [splitOnChar, h, if_false]
      rcases hs : splitOnChar sep rest with _ | ⟨x, xs⟩ <;> simp

theorem splitOnChar_cons_sep (sep : Char) (ys : Str) :
    splitOnChar sep (sep :: ys) = [] :: splitOnChar sep ys := by
  simp [splitOnChar]

theorem splitOnChar_append_no_sep (sep : Char) (xs r : Str) (hxs : sep ∉ xs) :
    splitOnChar sep (xs ++ r) =
      (xs ++ (splitOnChar sep r).headD []) :: (splitOnChar sep r).tail := by
  induction xs with
  | nil =>
    rcases hs : splitOnChar sep r with _ | ⟨x, t⟩
    · exact absurd hs (splitOnChar_ne_nil sep r)
    · simp [hs]
  | cons c cs ih =>
    have hc : ¬ c = sep := by
      intro hcc
      exact hxs (by simp [hcc])
    have ih2 := ih (fun h => hxs (by simp [h]))
    simp only [List.cons_append, splitOnChar, hc, if_false, List.append_eq]
    rw [ih2]

theorem splitOnChar_no_sep (sep : Char) (l : Str) (h : sep ∉ l) :
    splitOnChar sep l = [l] := by
  have := splitOnChar_append_no_sep sep l [] h
  simpa [splitOnChar] using this

/-- Digits are never the dollar separator. -/
theorem isDigit_ne_dollar (c : Char) (h : c.isDigit = true) : ¬ c = '$' := by
  intro hc
  subst hc
  exact absurd h (by decide)

/-!  Base64 round trip for the alphabets used by the hasher. -/

theorem b64sextets_lt (bs : Bytes) (hb : ∀ b ∈ bs, b < 256) :
    ∀ v ∈ b64sextets bs, v < 64 := by
  induction bs using b64sextets.induct with
  | case1 => simp [b64sextets]
  | case2 a =>
    have := hb a (by simp)
    simp [b64sextets]
    omega
  | case3 a b =>
    have h1 := hb a (by simp)
    have h2 := hb b (by simp)
    simp [b64sextets]
    omega
  | case4 a b c rest ih =>
    intro v hv
    have h1 := hb a (by simp)
    have h2 := hb b (by simp)
    have h3 := hb c (by simp)
    simp only [b64sextets, List.cons_append, List.mem_cons] at hv
    rcases hv with h | h | h | h | h
    · omega
    · omega
    · omega
    · omega
    · exact ih (fun x hx => hb x (by simp [hx])) v h

theorem b64charVal_std (v : Nat) (h : v < 64) :
    b64charVal stdAlphabet (stdAlphabet.getD v 'A') = some v := by
  revert h
  revert v
  decide

theorem b64charVal_url (v : Nat) (h : v < 64) :
    b64charVal urlAlphabet (urlAlphabet.getD v 'A') = some v := by
  revert h
  revert v
  decide

theorem b64vals_encode_std (sx : List Nat) (h : ∀ v ∈ sx, v < 64) :
    (sx.map (fun v => stdAlphabet.getD v 'A')).mapM (b64charVal stdAlphabet) = some sx := by
  induction sx with
  | nil => rfl
  | cons v vs ih =>
    have hv := b64charVal_std v (h v (by simp))
    have ihv := ih (fun x hx => h x (by simp [hx]))
    rw [List.map_cons, List.mapM_cons, hv, ihv]
    rfl

theorem b64sextets_ne_nil (x : Nat) (l : Bytes) : b64sextets (x :: l) ≠ [] := by
  match l with
  | [] => simp [b64sextets]
  | [b] => simp [b64sextets]
  | b :: c :: rest => simp [b64sextets]

theorem unSextets_b64sextets (bs : Bytes) (hb : ∀ b ∈ bs, b < 256) :
    unSextets (b64sextets bs) = some bs := by
  induction bs using b64sextets.induct with
  | case1 => rfl
  | case2 a =>
    have h1 := hb a (by simp)
    simp [b64sextets, unSextets]
    omega
  | case3 a b =>
    have h1 := hb a (by simp)
    have h2 := hb b (by simp)
    simp [b64sextets, unSextets]
    constructor <;> omega
  | case4 a b c rest ih =>
    have h1 := hb a (by simp)
    have h2 := hb b (by simp)
    have h3 := hb c (by simp)
    have ihv := ih (fun x hx => hb x (by simp [hx]))
    cases rest with
    | nil =>
      simp [b64sextets, unSextets]
      refine ⟨by omega, by omega, by omega⟩
    | cons r rs =>
      rcases hrs : b64sextets (r :: rs) with _ | ⟨s1, srest⟩
      · exact absurd hrs (b64sextets_ne_nil r rs)
      · rw [hrs] at ihv
        show unSextets (a / 4 :: (a % 4 * 16 + b / 16) :: (b % 16 * 4 + c / 64) :: c % 64 ::
          b64sextets (r :: rs)) = _
        rw [hrs]
        simp only [unSextets, ihv, Option.map_some', Option.some.injEq, List.cons.injEq,
          and_true, true_and]
        refine ⟨by omega, by omega, by omega⟩

theorem rawStdDecode_encode (bs : Bytes) (hb : ∀ b ∈ bs, b < 256) :
    RawStdDecode (RawStdEncode bs) = some bs := by
  unfold RawStdDecode RawStdEncode b64decodeWith b64encodeWith
  rw [b64vals_encode_std (b64sextets bs) (b64sextets_lt bs hb)]
  simpa [Option.bind] using unSextets_b64sextets bs hb

/-- Every character of a base64 encoding lies in its alphabet. -/
theorem encode_mem_alphabet (alpha : Str) (bs : Bytes) (hd : 'A' ∈ alpha) :
    ∀ c ∈ b64encodeWith alpha bs, c ∈ alpha := by
  intro c hc
  simp only [b64encodeWith, List.mem_map] at hc
  obtain ⟨v, -, hv⟩ := hc
  subst hv
  rcases h : alpha[v]? with _ | x
  · simp [List.getD, h, hd]
  · have hx : x ∈ alpha := List.getElem?_mem h
    simp [List.getD, h, hx]

/-!  Structure of the rendered argon2 hash string and the exactness of
`VerifyKey` against `HashKey`. -/

theorem hashArgon2_shape (P : HashPrims) (salt : Bytes) (keyData : Str) (cfg : Config) :
    hashArgon2 P salt keyData cfg =
      '$' :: (str "argon2id" ++ ('$' :: (str "v=19" ++ ('$' :: (str "m=" ++
        (natDigits cfg.Argon2Memory ++ (str ",t=" ++ (natDigits cfg.Argon2Time ++
        (str ",p=" ++ (natDigits cfg.Argon2Threads ++ ('$' :: (RawStdEncode salt ++
        '$' :: RawStdEncode (P.argon2Key (strBytes keyData) salt cfg.Argon2Time
          cfg.Argon2Memory cfg.Argon2Threads 32))))))))))))) := by
  show str "$argon2id$v=19$m=" ++ natDigits cfg.Argon2Memory ++ str ",t=" ++
      natDigits cfg.Argon2Time ++ str ",p=" ++ natDigits cfg.Argon2Threads ++
      '$' :: RawStdEncode salt ++ '$' :: RawStdEncode (P.argon2Key (strBytes keyData) salt
        cfg.Argon2Time cfg.Argon2Memory cfg.Argon2Threads 32) = _
  rw [show str "$argon2id$v=19$m=" =
    '$' :: (str "argon2id" ++ ('$' :: (str "v=19" ++ ('$' :: str "m=")))) from rfl]
  simp [List.append_assoc]

theorem dollar_not_mem_natDigits (n : Nat) : '$' ∉ natDigits n := by
  intro h
  exact isDigit_ne_dollar '$' (natDigits_digits n '$' h) rfl

theorem dollar_not_mem_rawStd (bs : Bytes) : '$' ∉ RawStdEncode bs := by
  intro h
  have hmem := encode_mem_alphabet stdAlphabet bs (by decide) '$' h
  exact absurd hmem (by decide)

theorem splitOnChar_hashArgon2 (P : HashPrims) (salt : Bytes) (keyData : Str) (cfg : Config) :
    splitOnChar '$' (hashArgon2 P salt keyData cfg) =
      [[], str "argon2id", str "v=19",
       str "m=" ++ natDigits cfg.Argon2Memory ++ str ",t=" ++ natDigits cfg.Argon2Time ++
         str ",p=" ++ natDigits cfg.Argon2Threads,
       RawStdEncode salt,
       RawStdEncode (P.argon2Key (strBytes keyData) salt cfg.Argon2Time cfg.Argon2Memory
         cfg.Argon2Threads 32)] := by
  have sH : splitOnChar '$' (RawStdEncode (P.argon2Key (strBytes keyData) salt cfg.Argon2Time
      cfg.Argon2Memory cfg.Argon2Threads 32)) =
      [RawStdEncode (P.argon2Key (strBytes keyData) salt cfg.Argon2Time cfg.Argon2Memory
        cfg.Argon2Threads 32)] :=
    splitOnChar_no_sep '$' _ (dollar_not_mem_rawStd _)
  have s3 : splitOnChar '$' ('$' :: (RawStdEncode salt ++
      '$' :: RawStdEncode (P.argon2Key (strBytes keyData) salt cfg.Argon2Time cfg.Argon2Memory
        cfg.Argon2Threads 32))) =
      [[], RawStdEncode salt,
       RawStdEncode (P.argon2Key (strBytes keyData) salt cfg.Argon2Time cfg.Argon2Memory
         cfg.Argon2Threads 32)] := by
    rw [splitOnChar_cons_sep,
      splitOnChar_append_no_sep '$' (RawStdEncode salt) _ (dollar_not_mem_rawStd salt),
      splitOnChar_cons_sep, sH]
    simp
  have sParams : splitOnChar '$' (str "m=" ++ (natDigits cfg.Argon2Memory ++ (str ",t=" ++
      (natDigits cfg.Argon2Time ++ (str ",p=" ++ (natDigits cfg.Argon2Threads ++
      ('$' :: (RawStdEncode salt ++ '$' :: RawStdEncode (P.argon2Key (strBytes keyData) salt
        cfg.Argon2Time cfg.Argon2Memory cfg.Argon2Threads 32))))))))) =
      (str "m=" ++ natDigits cfg.Argon2Memory ++ str ",t=" ++ natDigits cfg.Argon2Time ++
        str ",p=" ++ natDigits cfg.Argon2Threads) ::
      [RawStdEncode salt,
       RawStdEncode (P.argon2Key (strBytes keyData) salt cfg.Argon2Time cfg.Argon2Memory
         cfg.Argon2Threads 32)] := by
    rw [splitOnChar_append_no_sep '$' (str "m=") _ (by decide),
      splitOnChar_append_no_sep '$' (natDigits cfg.Argon2Memory) _ (dollar_not_mem_natDigits _),
      splitOnChar_append_no_sep '$' (str ",t=") _ (by decide),
      splitOnChar_append_no_sep '$' (natDigits cfg.Argon2Time) _ (dollar_not_mem_natDigits _),
      splitOnChar_append_no_sep '$' (str ",p=") _ (by decide),
      splitOnChar_append_no_sep '$' (natDigits cfg.Argon2Threads) _ (dollar_not_mem_natDigits _),
      s3]
    simp [List.append_assoc]
  rw [hashArgon2_shape, splitOnChar_cons_sep,
    splitOnChar_append_no_sep '$' (str "argon2id") _ (by decide), splitOnChar_cons_sep,
    splitOnChar_append_no_sep '$' (str "v=19") _ (by decide), splitOnChar_cons_sep,
    sParams]
  simp

theorem verifyArgon2_hashArgon2 (P : HashPrims) (hP : HashPrimsOK P) (salt : Bytes)
    (hsalt : ∀ b ∈ salt, b < 256) (data keyData : Str) (cfg : Config) :
    verifyArgon2 P data (hashArgon2 P salt keyData cfg) =
      (P.argon2Key (strBytes data) salt cfg.Argon2Time cfg.Argon2Memory cfg.Argon2Threads 32 ==
       P.argon2Key (strBytes keyData) salt cfg.Argon2Time cfg.Argon2Memory cfg.Argon2Threads 32)
    := by
  have hbytes := hP.argon2_bytes (strBytes keyData) salt cfg.Argon2Time cfg.Argon2Memory
    cfg.Argon2Threads 32
  have hlen := hP.argon2_len (strBytes keyData) salt cfg.Argon2Time cfg.Argon2Memory
    cfg.Argon2Threads 32
  have g3 : ∀ (a b c d e : Str), ([[], a, b, c, d, e] : List Str).getD 3 [] = c :=
    fun _ _ _ _ _ => rfl
  have g4 : ∀ (a b c d e : Str), ([[], a, b, c, d, e] : List Str).getD 4 [] = d :=
    fun _ _ _ _ _ => rfl
  have g5 : ∀ (a b c d e : Str), ([[], a, b, c, d, e] : List Str).getD 5 [] = e :=
    fun _ _ _ _ _ => rfl
  unfold verifyArgon2
  rw [splitOnChar_hashArgon2 P salt keyData cfg]
  rw [if_neg (by simp)]
  rw [g3, g4, g5, parseParams_round]
  dsimp only
  rw [rawStdDecode_encode salt hsalt]
  dsimp only
  rw [rawStdDecode_encode _ hbytes]
  dsimp only
  rw [hlen]

theorem isPrefixOf_eq_true_of_append (a t : Str) : a.isPrefixOf (a ++ t) = true := by
  induction a with
  | nil => cases t <;> rfl
  | cons c cs ih => simp [List.isPrefixOf, ih]

theorem eq_append_drop_of_isPrefixOf (a : Str) :
    ∀ k : Str, a.isPrefixOf k = true → k = a ++ k.drop a.length := by
  induction a with
  | nil => intro k _; rfl
  | cons c cs ih =>
    intro k h
    cases k with
    | nil => simp [List.isPrefixOf] at h
    | cons x xs =>
      simp only [List.isPrefixOf, Bool.and_eq_true, beq_iff_eq] at h
      obtain ⟨hcx, hrest⟩ := h
      subst hcx
      simp only [List.length_cons, List.drop_succ_cons, List.cons_append]
      exact congrArg (c :: ·) (ih xs hrest)

theorem trimTag_append (e : Str) : trimTag (KeyTag ++ e) = some e := by
  have hp : KeyTag.isPrefixOf (KeyTag ++ e) = true := isPrefixOf_eq_true_of_append _ _
  unfold trimTag
  rw [if_pos hp]
  rfl

theorem trimTag_some (k d : Str) (h : trimTag k = some d) : k = KeyTag ++ d := by
  unfold trimTag at h
  cases hp : KeyTag.isPrefixOf k with
  | false => rw [if_neg (by simp [hp])] at h; cases h
  | true =>
    rw [if_pos hp] at h
    cases h
    exact eq_append_drop_of_isPrefixOf KeyTag k hp

theorem bcryptTag_not_hashArgon2 (P : HashPrims) (salt : Bytes) (keyData : Str) (cfg : Config) :
    (str "$2").isPrefixOf (hashArgon2 P salt keyData cfg) = false := by
  rw [hashArgon2_shape]
  rfl

theorem argon2Tag_hashArgon2 (P : HashPrims) (salt : Bytes) (keyData : Str) (cfg : Config) :
    (str "$argon2").isPrefixOf (hashArgon2 P salt keyData cfg) = true := by
  rw [hashArgon2_shape]
  rfl

theorem modelPrimsOK : HashPrimsOK modelPrims := by
  refine ⟨fun c s d => rfl, fun c s d => ?_, fun pw s t m p n => ?_,
    fun pw s t m p n b hb => ?_⟩
  · show (str "$2b$" ++ bytesEnc d == str "$2b$" ++ bytesEnc d) = true
    simp
  · show ((pw.map (· % 256) ++ s.map (· % 256) ++ List.replicate n 0).take n).length = n
    simp [List.length_take]
    omega
  · have hb2 : b ∈ pw.map (· % 256) ++ s.map (· % 256) ++ List.replicate n 0 :=
      List.mem_of_mem_take hb
    simp only [List.mem_append, List.mem_map, List.mem_replicate] at hb2
    rcases hb2 with (⟨x, -, hx⟩ | ⟨x, -, hx⟩) | ⟨-, hx⟩ <;> omega

/-- Claim C1: for every raw key produced by `GenerateAPIKey` and every hashing
configuration, `VerifyKey` accepts the key against its own `HashKey` output;
and any distinct raw key that `VerifyKey` accepts must itself carry the `ppk_`
tag with key data different from the generated encoding yet colliding under
the external primitive at the same salt and parameters (a bcrypt check
accepting foreign data, or an argon2id digest collision) — so rejection of
every other key holds exactly up to collision-freedom of the configured
primitive, and an untagged key is always rejected. -/
theorem generate_hash_verify_round_trip
    (P : HashPrims) (hP : HashPrimsOK P) (cfg : Config) (keyBytes salt : Bytes)
    (hsalt : ∀ b ∈ salt, b < 256) (raw h : Str)
    (hraw : raw = (GenerateAPIKey keyBytes).1)
    (hh : HashKey P salt raw cfg = .ok h) :
    VerifyKey P raw h cfg = true ∧
    (∀ k', VerifyKey P k' h cfg = true → k' ≠ raw →
      ∃ d', k' = KeyTag ++ d' ∧ d' ≠ RawURLEncode keyBytes ∧
        ((P.bcryptCheck h (strBytes d') = true ∧
            h = P.bcryptHash cfg.BcryptCost salt (strBytes (RawURLEncode keyBytes))) ∨
          P.argon2Key (strBytes d') salt cfg.Argon2Time cfg.Argon2Memory cfg.Argon2Threads 32 =
            P.argon2Key (strBytes (RawURLEncode keyBytes)) salt cfg.Argon2Time cfg.Argon2Memory
              cfg.Argon2Threads 32)) ∧
    (∀ k', trimTag k' = none → VerifyKey P k' h cfg = false) := by
  have hraw2 : raw = KeyTag ++ RawURLEncode keyBytes := hraw
  have htrim : trimTag raw = some (RawURLEncode keyBytes) := by
    rw [hraw2]; exact trimTag_append _
  simp only [HashKey, htrim] at hh
  by_cases halg : cfg.APIKeyHashAlgorithm = str "argon2"
  · have hnb : ¬ cfg.APIKeyHashAlgorithm = str "bcrypt" := by rw [halg]; decide
    rw [if_neg hnb, if_pos halg] at hh
    have hh2 : h = hashArgon2 P salt (RawURLEncode keyBytes) cfg := by
      injection hh with h3; exact h3.symm
    subst hh2
    refine ⟨?_, ?_, ?_⟩
    · simp [VerifyKey, htrim, bcryptTag_not_hashArgon2, argon2Tag_hashArgon2,
        verifyArgon2_hashArgon2 P hP salt hsalt]
    · intro k' hacc hne
      rcases htr : trimTag k' with _ | d'
      · simp [VerifyKey, htr] at hacc
      · have hk' : k' = KeyTag ++ d' := trimTag_some k' d' htr
        refine ⟨d', hk', ?_, Or.inr ?_⟩
        · intro hde
          exact hne (by rw [hk', hde, ← hraw2])
        · simp only [VerifyKey, htr, bcryptTag_not_hashArgon2, Bool.false_eq_true, if_false,
            argon2Tag_hashArgon2, if_true] at hacc
          rw [verifyArgon2_hashArgon2 P hP salt hsalt] at hacc
          exact eq_of_beq hacc
    · intro k' htr
      simp [VerifyKey, htr]
  · have hh2 : h = P.bcryptHash cfg.BcryptCost salt (strBytes (RawURLEncode keyBytes)) := by
      by_cases hb : cfg.APIKeyHashAlgorithm = str "bcrypt"
      · rw [if_pos hb] at hh; injection hh with h3; exact h3.symm
      · rw [if_neg hb, if_neg halg] at hh; injection hh with h3; exact h3.symm
    subst hh2
    refine ⟨?_, ?_, ?_⟩
    · simp [VerifyKey, htrim, hP.bcrypt_tag, hP.bcrypt_rt]
    · intro k' hacc hne
      rcases htr : trimTag k' with _ | d'
      · simp [VerifyKey, htr] at hacc
      · have hk' : k' = KeyTag ++ d' := trimTag_some k' d' htr
        refine ⟨d', hk', ?_, Or.inl ⟨?_, rfl⟩⟩
        · intro hde
          exact hne (by rw [hk', hde, ← hraw2])
        · simp only [VerifyKey, htr, hP.bcrypt_tag, if_true] at hacc
          exact hacc
    · intro k' htr
      simp [VerifyKey, htr]

/-- Witness for C1 at a concrete input: key bytes `[1, 2, 3]`, salt `[4, 5]`,
argon2id configuration, model primitives. -/
theorem generate_hash_verify_round_trip_witness :
    VerifyKey modelPrims (GenerateAPIKey [1, 2, 3]).1
      (hashArgon2 modelPrims [4, 5] (RawURLEncode [1, 2, 3]) cfgArgon) cfgArgon = true :=
  (generate_hash_verify_round_trip modelPrims modelPrimsOK cfgArgon [1, 2, 3] [4, 5]
    (by decide) (GenerateAPIKey [1, 2, 3]).1
    (hashArgon2 modelPrims [4, 5] (RawURLEncode [1, 2, 3]) cfgArgon) rfl rfl).1

end PromptPack
